import Mathlib

/-!
Verification of the bomhelper BOM consolidation / ranking / selection core.

This file is a shallow embedding of the Python sources
`bom_parser.py`, `part_ranker.py`, `mouser_api.py` and `bom_mouser_lookup.py`:

* Python strings are Lean `String`; `str.strip()` is modelled by `pyStrip`
  (ASCII whitespace), `str.upper()` by `pyUpper` (ASCII case folding).
* Python dicts (which preserve insertion order, and on assignment replace
  the value of an existing key in place) are modelled by association lists
  `List (String × α)` with `dget` / `dset`.
* Python floats are modelled by exact rationals `ℚ`; `round(x, 2)`
  (round-half-even on binary floats) is modelled by `round2`, exact
  round-half-up on `ℚ`.  Every fact proved below is insensitive to the
  difference (all comparisons have slack much larger than the rounding step).
* `sorted(xs, key=k)` / `sorted(xs, key=k, reverse=True)` (Timsort, stable)
  are modelled by the stable insertion sort `sSort` with the strict
  comparator on the key; a stable sort is extensionally unique, so this
  agrees with any stable sort.
* Missing dict keys on vendor-part records are modelled with `Option`
  fields, `d.get(k, dflt)` becoming `(field).getD dflt`.
-/

/-- Model of Python `str.strip()`s whitespace set restricted to ASCII
(space, tab, newline, carriage return), which covers all values occurring
in BOM data. -/
def pyWhitespace (c : Char) : Bool :=
  c = ' ' || c = '\t' || c = '\n' || c = '\r'

/-- Strip `pyWhitespace` characters from both ends of a character list. -/
def stripChars (l : List Char) : List Char :=
  ((l.dropWhile pyWhitespace).reverse.dropWhile pyWhitespace).reverse

/-- Model of Python `str.strip()`. -/
def pyStrip (s : String) : String := String.mk (stripChars s.toList)

/-- ASCII upper-casing of one character. -/
def upChar (c : Char) : Char :=
  if 'a' ≤ c ∧ c ≤ 'z' then Char.ofNat (c.toNat - 32) else c

/-- Model of Python `str.upper()` (ASCII range; lifecycle and package
strings in this program are ASCII). -/
def pyUpper (s : String) : String := String.mk (s.toList.map upChar)

/-- Model of Python `str.isdigit()` restricted to ASCII digits: true iff
the string is non-empty and all characters are digits. -/
def isDigitStr (s : String) : Bool :=
  s.toList ≠ [] && s.toList.all Char.isDigit

/-- Numeric value of a digit string, as used for `int(qty)` on a string
that passed `isdigit()`. -/
def digitsToNat (l : List Char) : Nat :=
  l.foldl (fun acc c => 10 * acc + (c.toNat - 48)) 0

/-- Model of `', '.join(xs)` and `', '.join` style joins. -/
def joinComma : List String → String
  | [] => ""
  | [x] => x
  | x :: xs => x ++ ", " ++ joinComma xs

/-- Lookup in an insertion-ordered dict modelled as an association list
(first matching key wins, as keys are unique in a Python dict). -/
def dget {α : Type} (k : String) : List (String × α) → Option α
  | [] => none
  | kv :: l => if kv.1 = k then some kv.2 else dget k l

/-- Assignment `d[k] = v` on an insertion-ordered dict: replace the value
of an existing key in place, otherwise append the new binding at the end
(Python dicts preserve insertion order on update). -/
def dset {α : Type} : List (String × α) → String → α → List (String × α)
  | [], k, v => [(k, v)]
  | kv :: l, k, v => if kv.1 = k then (k, v) :: l else kv :: dset l k v

/-- Append an element to an accumulator if it is not already present;
folding this over a list yields the distinct elements in first-seen order. -/
def insertUnique {α : Type} [DecidableEq α] (l : List α) (x : α) : List α :=
  if x ∈ l then l else l ++ [x]

/-- Distinct elements of a list in first-seen order. -/
def firstSeen {α : Type} [DecidableEq α] (l : List α) : List α :=
  l.foldl insertUnique []

/-- Stable insertion: place `a` before the first element `b` of `l` with
`lt b a = false`.  When `lt` is a strict order on a sort key, folding this
from the right is exactly a stable sort by that key (equal keys keep their
original relative order), which is the observable behaviour of Python
`sorted`. -/
def sInsert {α : Type} (lt : α → α → Bool) (a : α) : List α → List α
  | [] => [a]
  | b :: l => if lt b a then b :: sInsert lt a l else a :: b :: l

/-- Stable sort with strict comparator `lt` (model of Python `sorted`). -/
def sSort {α : Type} (lt : α → α → Bool) : List α → List α
  | [] => []
  | a :: l => sInsert lt a (sSort lt l)

/-- Strict comparator induced by a sort key into a linear order. -/
def keyLt {α κ : Type} [LinearOrder κ] (key : α → κ) (a b : α) : Bool :=
  decide (key a < key b)

/-! ## BOM ingestion (`bom_parser.py`)

A parsed component (`RawRow` in the spec) is a Python dict mapping
normalized column name to stripped string value; modelled as an ordered
association list.  -/

/-- Model of a parsed BOM row: normalized field name to string value. -/
abbrev Row := List (String × String)

/-- Per-row component built in `BOMParser.parse_csv`: for each header index
within the physical row, the cell value stripped
(`component[normalized_header] = str(value).strip()`); cells beyond the
header count are ignored, headers beyond the row length are skipped. -/
def csvComponent (headers : List String) (row : List String) : Row :=
  (headers.zip row).map (fun hv => (hv.1, pyStrip hv.2))

/-- Data-row loop of `BOMParser.parse_csv` (lines 127-141): skip a row when
all its raw cells are empty (`if not any(row): continue`), then keep the
built component only when it is non-empty and has some non-empty stripped
value (`if component and any(v for v in component.values() if v)`). -/
def parse_csv_rows (headers : List String) (rows : List (List String)) : List Row :=
  rows.filterMap (fun row =>
    if row.any (fun cell => cell != "") then
      let comp := csvComponent headers row
      if comp ≠ [] ∧ comp.any (fun kv => kv.2 != "") then some comp else none
    else none)

/-- Per-row component built in `BOMParser.parse_excel`: an Excel cell value
is `none` for an empty cell; a present value is stringified and stripped,
a missing one becomes `""`. -/
def excelComponent (headers : List String) (row : List (Option String)) : Row :=
  (headers.zip row).map (fun hv =>
    (hv.1, match hv.2 with
           | some v => pyStrip v
           | none => ""))

/-- Data-row loop of `BOMParser.parse_excel` (lines 209-225): skip a row
when no cell holds a truthy value (`if not any(cell.value for cell in row)`),
then keep the component only when it has some non-empty stripped value. -/
def parse_excel_rows (headers : List String) (rows : List (List (Option String))) :
    List Row :=
  rows.filterMap (fun row =>
    if row.any (fun cell => cell.getD "" != "") then
      let comp := excelComponent headers row
      if comp ≠ [] ∧ comp.any (fun kv => kv.2 != "") then some comp else none
    else none)

/-! ## Consolidation Engine (`BOMParser.get_consolidated_parts`) -/

/-- One consolidated part: the dict built at group creation in
`get_consolidated_parts` (lines 265-280), in field order; `extra` holds the
additional columns copied from the first row of the group, and `refdes` is
the final comma-joined field (absent until the end of consolidation,
modelled by `""`). -/
structure ConsPart where
  refdes_list : List String
  mpn : String
  value : String
  package : String
  voltage : String
  tolerance : String
  power : String
  description : String
  quantity : Int
  extra : List (String × String)
  refdes : String
deriving DecidableEq

/-- Keys present in a group dict at creation time, plus `refdes` (excluded
explicitly by the source); additional columns are copied only for keys
outside this set. -/
def consBaseKeys : List String :=
  ["refdes_list", "mpn", "value", "package", "voltage", "tolerance", "power",
   "description", "quantity", "refdes"]

/-- Stripped `mpn` of a row, `comp.get('mpn', '').strip()`. -/
def rowMpn (comp : Row) : String := pyStrip ((dget "mpn" comp).getD "")

/-- Stripped `value` of a row. -/
def rowValue (comp : Row) : String := pyStrip ((dget "value" comp).getD "")

/-- Stripped `package` of a row. -/
def rowPackage (comp : Row) : String := pyStrip ((dget "package" comp).getD "")

/-- Stripped `refdes` of a row. -/
def rowRefdes (comp : Row) : String := pyStrip ((dget "refdes" comp).getD "")

/-- Grouping-key derivation of `get_consolidated_parts` (lines 249-263).
The fallback key `str(hash(str(sorted(comp.items()))))` is parametrized as
`hashKey` because Python string hashing is salted per process; theorems
that need it assume only that fallback keys stay outside the `"mpn:"`
namespace, which holds for every decimal string `str(int)`. -/
def groupKey (hashKey : Row → String) (comp : Row) : String :=
  let mpn := rowMpn comp
  let value := rowValue comp
  let package := rowPackage comp
  if mpn ≠ "" then "mpn:" ++ mpn
  else if value ≠ "" ∧ package ≠ "" then "value:" ++ value ++ "|package:" ++ package
  else if value ≠ "" then "value:" ++ value
  else hashKey comp

/-- Group dict created on first membership (lines 265-280): scalar fields
from the first row, zero quantity, and every additional column of that row
copied through. -/
def newPart (mpn value package : String) (comp : Row) : ConsPart :=
  { refdes_list := []
    mpn := mpn
    value := value
    package := package
    voltage := (dget "voltage" comp).getD ""
    tolerance := (dget "tolerance" comp).getD ""
    power := (dget "power" comp).getD ""
    description := (dget "description" comp).getD ""
    quantity := 0
    extra := comp.filter (fun kv => kv.1 ∉ consBaseKeys)
    refdes := "" }

/-- Quantity contributed by one row (lines 288-295): `int(qty)` when the
string passes `isdigit()`, else `0`; then `+= qty if qty else 1`, so a
missing field, an unparsable field, or a parsed zero all contribute `1`. -/
def qtyContribution (comp : Row) : Int :=
  match dget "quantity" comp with
  | none => 1
  | some s =>
      if isDigitStr s then
        if digitsToNat s.toList ≠ 0 then (digitsToNat s.toList : Int) else 1
      else 1

/-- Accumulation of one row into its group (lines 282-295): append the
stripped refdes when non-empty and not yet present, then add the quantity
contribution. -/
def addRow (p : ConsPart) (comp : Row) : ConsPart :=
  let refdes := rowRefdes comp
  let p1 :=
    if refdes ≠ "" ∧ refdes ∉ p.refdes_list then
      { p with refdes_list := p.refdes_list ++ [refdes] }
    else p
  { p1 with quantity := p1.quantity + qtyContribution comp }

/-- One iteration of the consolidation loop over `components`: create the
group on first sight of its key, else update the existing group in place. -/
def consStep (hashKey : Row → String) (acc : List (String × ConsPart)) (comp : Row) :
    List (String × ConsPart) :=
  let key := groupKey hashKey comp
  match dget key acc with
  | none =>
      acc ++ [(key, addRow (newPart (rowMpn comp) (rowValue comp) (rowPackage comp) comp) comp)]
  | some p => dset acc key (addRow p comp)

/-- The `parts_dict` after consuming all rows, keys in insertion order. -/
def consolidateAcc (hashKey : Row → String) (components : List Row) :
    List (String × ConsPart) :=
  components.foldl (consStep hashKey) []

/-- Model of `BOMParser.get_consolidated_parts` (lines 245-303): group the
rows, then emit the groups in insertion order with
`part['refdes'] = ', '.join(part['refdes_list'])`. -/
def get_consolidated_parts (hashKey : Row → String) (components : List Row) :
    List ConsPart :=
  (consolidateAcc hashKey components).map
    (fun kv => { kv.2 with refdes := joinComma kv.2.refdes_list })

/-- First-seen accumulation of non-empty stripped reference designators
(the `refdes_list` aggregation of lines 282-286). -/
def refdesStep (l : List String) (comp : Row) : List String :=
  let r := rowRefdes comp
  if r ≠ "" ∧ r ∉ l then l ++ [r] else l

/-- Distinct non-empty stripped refdes of a row group, first-seen order. -/
def collectRefdes (rows : List Row) : List String :=
  rows.foldl refdesStep []

/-! ## Ranking Engine (`part_ranker.py` and `bom_mouser_lookup.py` ranking) -/

/-- One price break of a vendor part; fields are `Option` because the NA
sentinel and hand-built dicts may omit keys (`pb.get(...)` semantics). -/
structure PriceBreak where
  quantity : Option Int
  price : Option String
  currency : Option String
deriving DecidableEq

/-- One vendor search result, the normalized dict built by
`MouserAPI._normalize_results` plus the `score` attached by the ranking
engine; `Option` fields model possibly-missing dict keys. -/
structure MouserPart where
  mpn : Option String
  manufacturer : Option String
  mouser_part_number : Option String
  description : Option String
  data_sheet_url : Option String
  image_url : Option String
  lifecycle : Option String
  rohs_status : Option String
  package : Option String
  stock : Option Int
  price_breaks : Option (List PriceBreak)
  product_url : Option String
  lead_time : Option String
  score : Option ℚ
deriving DecidableEq

/-- Python `part.get('stock', 0)`. -/
def stockOf (p : MouserPart) : Int := p.stock.getD 0

/-- Python `part.get('score', 0)`. -/
def scoreOf (p : MouserPart) : ℚ := p.score.getD 0

/-- Remove every `$` and `,` character, the model of
`price.replace('$', '').replace(',', '')`. -/
def stripDollarCommas (s : String) : String :=
  String.mk (s.toList.filter (fun c => c ≠ '$' ∧ c ≠ ','))

/-- Model of Python `float(s)` on the grammar subset
`[+-]? digits [. digits]` actually occurring in vendor price strings
(no exponents, no `inf`/`nan`, no underscores); any other shape fails,
matching `float` raising `ValueError`. -/
def pyFloatQ (s : String) : Option ℚ :=
  let chars := s.toList
  let signed : ℤ × List Char :=
    match chars with
    | '+' :: r => (1, r)
    | '-' :: r => (-1, r)
    | r => (1, r)
  let intPart := signed.2.takeWhile Char.isDigit
  let rest := signed.2.dropWhile Char.isDigit
  match rest with
  | [] => if intPart ≠ [] then some ((signed.1 : ℚ) * digitsToNat intPart) else none
  | '.' :: frac =>
      if frac.all Char.isDigit ∧ (intPart ≠ [] ∨ frac ≠ []) then
        some ((signed.1 : ℚ) *
          ((digitsToNat intPart : ℚ) + (digitsToNat frac : ℚ) / (10 : ℚ) ^ frac.length))
      else none
  | _ => none

/-- Cleaning and parsing applied to one price string in `score_price` and
`_extract_price`: strip `$` and `,`, strip whitespace, parse as float. -/
def parsePriceStr (s : String) : Option ℚ :=
  pyFloatQ (pyStrip (stripDollarCommas s))

/-- Weight set of `RankingEngine`; `mkRankWeights` is the constructor with
its normalization to sum 1 (lines 11-33 of `part_ranker.py`). -/
structure RankWeights where
  stock_weight : ℚ
  price_weight : ℚ
  lifecycle_weight : ℚ
  package_match_weight : ℚ
deriving DecidableEq

/-- Constructor of `RankingEngine`: divide each weight by the total when
the total is positive. -/
def mkRankWeights (stock_weight price_weight lifecycle_weight package_match_weight : ℚ) :
    RankWeights :=
  let total := stock_weight + price_weight + lifecycle_weight + package_match_weight
  if 0 < total then
    { stock_weight := stock_weight / total
      price_weight := price_weight / total
      lifecycle_weight := lifecycle_weight / total
      package_match_weight := package_match_weight / total }
  else
    { stock_weight := stock_weight
      price_weight := price_weight
      lifecycle_weight := lifecycle_weight
      package_match_weight := package_match_weight }

/-- The application's ranker, `RankingEngine(0.3, 0.5, 0.1, 0.1)`
(`bom_mouser_lookup.py` lines 71-76). -/
def appRankerWeights : RankWeights := mkRankWeights (3/10) (5/10) (1/10) (1/10)

/-- Weights installed by the stock branch of `rank_parts_with_preference`
(lines 1290-1300): 0.6 / 0.2 / 0.1 / 0.1, re-normalized by their total. -/
def stockModeWeights : RankWeights :=
  let total := (6/10 : ℚ) + 2/10 + 1/10 + 1/10
  { stock_weight := (6/10) / total
    price_weight := (2/10) / total
    lifecycle_weight := (1/10) / total
    package_match_weight := (1/10) / total }

/-- Model of `RankingEngine.normalize_package`: uppercase, strip, then
remove spaces, dashes and underscores. -/
def normalize_package (package : String) : String :=
  if package = "" then ""
  else String.mk ((pyStrip (pyUpper package)).toList.filter
    (fun c => c ≠ ' ' ∧ c ≠ '-' ∧ c ≠ '_'))

/-- Model of `RankingEngine.packages_match`: exact normalized match or a
substring match in either direction; false when either input is empty. -/
def packages_match (package1 package2 : String) : Bool :=
  if package1 = "" ∨ package2 = "" then false
  else
    let norm1 := normalize_package package1
    let norm2 := normalize_package package2
    if norm1 = norm2 then true
    else if norm1.toList <:+: norm2.toList ∨ norm2.toList <:+: norm1.toList then true
    else false

/-- Model of `RankingEngine.score_stock` (lines 63-78), a step function of
the stock level. -/
def score_stock (part : MouserPart) : ℚ :=
  let stock := part.stock.getD 0
  if stock ≤ 0 then 0
  else if stock ≥ 10000 then 100
  else if stock ≥ 1000 then 80
  else if stock ≥ 100 then 60
  else if stock ≥ 10 then 40
  else 20

/-- Minimum parseable price over all price breaks, as accumulated in
`RankingEngine.score_price`. -/
def minParsedPrice (price_breaks : List PriceBreak) : Option ℚ :=
  price_breaks.foldl
    (fun min_price pb =>
      match parsePriceStr (pb.price.getD "") with
      | none => min_price
      | some price =>
          match min_price with
          | none => some price
          | some m => if price < m then some price else some m)
    none

/-- Model of `RankingEngine.score_price` (lines 80-115): neutral 50 with no
price breaks or no parseable price, else a step function of the minimum
parsed price. -/
def score_price (part : MouserPart) : ℚ :=
  match part.price_breaks.getD [] with
  | [] => 50
  | pbs =>
      match minParsedPrice pbs with
      | none => 50
      | some min_price =>
          if min_price ≤ 1/100 then 100
          else if min_price ≤ 1/10 then 90
          else if min_price ≤ 1 then 70
          else if min_price ≤ 10 then 50
          else if min_price ≤ 50 then 30
          else 10

/-- Model of `RankingEngine.score_lifecycle` (lines 117-132). -/
def score_lifecycle (part : MouserPart) : ℚ :=
  let lifecycle := pyUpper (part.lifecycle.getD "")
  if lifecycle = "" then 50
  else if lifecycle ∈ ["ACTIVE", "LIFEBUY", "NEW"] then 100
  else if lifecycle ∈ ["LAST TIME BUY", "NOT RECOMMENDED FOR NEW DESIGNS"] then 30
  else if lifecycle ∈ ["OBSOLETE", "EOL", "END OF LIFE"] then 0
  else 50

/-- Model of `RankingEngine.score_package_match` (lines 134-146); the
absent target package (`None` or `""`, both falsy) is modelled by `""`. -/
def score_package_match (part : MouserPart) (target_package : String) : ℚ :=
  if target_package = "" then 50
  else
    let part_package := part.package.getD ""
    if part_package = "" then 0
    else if packages_match part_package target_package then 100
    else 0

/-- Model of Python `round(x, 2)` on exact rationals (round half up; the
float round-half-even differs only at exact midpoints, which none of the
proved facts depend on). -/
def round2 (x : ℚ) : ℚ := (⌊100 * x + 1/2⌋ : ℚ) / 100

/-- Model of `RankingEngine.calculate_score` (lines 148-181): the weighted
linear combination of the four sub-scores, rounded to two decimals. -/
def calculate_score (w : RankWeights) (part : MouserPart) (target_package : String) : ℚ :=
  round2 (w.stock_weight * score_stock part
    + w.price_weight * score_price part
    + w.lifecycle_weight * score_lifecycle part
    + w.package_match_weight * score_package_match part target_package)

/-- Attachment `part['score'] = ...`. -/
def setScore (p : MouserPart) (q : ℚ) : MouserPart := { p with score := some q }

/-- Sort key of `RankingEngine.rank_parts`:
`key=lambda p: (p.get('score', 0), p.get('stock', 0)), reverse=True`, i.e.
descending lexicographic on (score, stock). -/
def stockSortKey (p : MouserPart) : (Lex (ℚ × ℤ))ᵒᵈ :=
  OrderDual.toDual (toLex (scoreOf p, stockOf p))

/-- Model of `RankingEngine.rank_parts` (lines 183-206): attach scores,
then stable-sort descending by (score, stock). -/
def rank_parts (w : RankWeights) (parts : List MouserPart) (target_package : String) :
    List MouserPart :=
  let scored := parts.map (fun part => setScore part (calculate_score w part target_package))
  sSort (keyLt stockSortKey) scored

/-- Loop body of `_extract_price` (`bom_mouser_lookup.py` lines 1198-1224):
skip empty and unparsable prices, remember the first parseable price, stop
at the first parseable quantity-1 break. -/
def _extract_price_loop : List PriceBreak → Option ℚ → Option ℚ
  | [], first_price => first_price
  | pb :: rest, first_price =>
      let price := pb.price.getD ""
      if price = "" then _extract_price_loop rest first_price
      else
        match pyFloatQ (pyStrip (stripDollarCommas price)) with
        | none => _extract_price_loop rest first_price
        | some price_float =>
            let first' := if first_price = none then some price_float else first_price
            if pb.quantity.getD 0 = 1 then some price_float
            else _extract_price_loop rest first'

/-- Model of `_extract_price` (lines 1184-1234): the quantity-1 unit price
when one parses, else the first parseable price break, else infinity. -/
def _extract_price (part : MouserPart) : WithTop ℚ :=
  match _extract_price_loop (part.price_breaks.getD []) none with
  | some q => (q : WithTop ℚ)
  | none => ⊤

/-- Sort key of the price branch of `rank_parts_with_preference`
(line 1273): `key=lambda p: (self._extract_price(p), -p.get('stock', 0))`,
ascending. -/
def priceSortKey (p : MouserPart) : Lex ((WithTop ℚ) × ℤ) :=
  toLex (_extract_price p, -(stockOf p))

/-- Model of `rank_parts_with_preference` (lines 1236-1324).  The price
branch attaches display scores with the application ranker's weights and
stable-sorts ascending by `priceSortKey`; every other `sort_by` value runs
`rank_parts` under the re-normalized stock-mode weights. -/
def rank_parts_with_preference (results : List MouserPart) (target_package : String)
    (sort_by : String) : List MouserPart :=
  if sort_by = "price" then
    let scored := results.map
      (fun part => setScore part (calculate_score appRankerWeights part target_package))
    sSort (keyLt priceSortKey) scored
  else
    rank_parts stockModeWeights results target_package

/-! ## Post-search filters (`MouserAPI._apply_filters`) -/

/-- Lifecycle strings excluded by the active-only filter
(`mouser_api.py` line 288). -/
def badLifecycles : List String :=
  ["OBSOLETE", "EOL", "END OF LIFE", "NOT RECOMMENDED FOR NEW DESIGNS",
   "END OF LIFE (EOL)"]

/-- Model of `MouserAPI._apply_filters` (lines 260-291): keep `stock > 0`
when `in_stock_only`, then drop excluded lifecycle strings (compared
upper-cased) when `active_only`. -/
def _apply_filters (parts : List MouserPart) (in_stock_only active_only : Bool) :
    List MouserPart :=
  let filtered := parts
  let filtered := if in_stock_only then filtered.filter (fun p => 0 < p.stock.getD 0)
                  else filtered
  let filtered := if active_only then
                    filtered.filter (fun p => pyUpper (p.lifecycle.getD "") ∉ badLifecycles)
                  else filtered
  filtered

/-! ## Selection state, export projection and state snapshot
(`bom_mouser_lookup.py`) -/

/-- One flat export record, the dict built per checked part in
`get_export_data` (lines 2102-2116); `Quantity` is `none` when the
original part cannot be found (the `''` default branch). -/
structure ExportRow where
  REFDES : String
  Quantity : Option Int
  Description : String
  Package : String
  MPN : String
  MouserPartNumber : String
  Manufacturer : String
  Value : String
  Voltage : String
  Stock : Int
  Price : String
  Lifecycle : String
  ProductURL : String
deriving DecidableEq

/-- The application state relevant to selection, export and snapshots: the
fields of `BOMMouserLookupApp` captured by `save_bom_state`
(lines 2251-2273), with tkinter variables replaced by their values. -/
structure Session where
  components : List Row
  consolidated_parts : List ConsPart
  column_mapping : List (String × String)
  selected_parts : List (String × MouserPart)
  part_selected : List (String × Bool)
  in_stock_only : Bool
  active_only : Bool
  sort_preference : String
  current_search_results : List (String × List MouserPart)
  batch_part_keys : List String
  current_batch_index : Int
  part_key_to_index : List (String × Nat)
deriving DecidableEq

/-- Model of `_generate_part_key` (lines 553-555). -/
def _generate_part_key (index : Nat) : String := "part_" ++ toString index

/-- Model of `_get_part_by_key` (lines 557-562): index lookup guarded by
the list length. -/
def _get_part_by_key (s : Session) (part_key : String) : Option ConsPart :=
  match dget part_key s.part_key_to_index with
  | some index => s.consolidated_parts[index]?
  | none => none

/-- The NA sentinel dict built in `confirm_selected_part` on the `'NA'`
radio choice (lines 1988-1995); only these four keys are present. -/
def naSelectedPart : MouserPart :=
  { mpn := some "NA"
    manufacturer := some "N/A"
    mouser_part_number := some "NA"
    description := some "N/A - No part selected"
    data_sheet_url := none
    image_url := none
    lifecycle := none
    rohs_status := none
    package := none
    stock := none
    price_breaks := none
    product_url := none
    lead_time := none
    score := none }

/-- State effect of `confirm_part_selection` (lines 2018-2031): store the
chosen part under the part key (overwriting any previous choice) and set
the checked flag; the remainder of the function only updates the widget
table and status bar. -/
def confirm_part_selection (s : Session) (part_key : String) (mouser_part : MouserPart) :
    Session :=
  { s with
      selected_parts := dset s.selected_parts part_key mouser_part
      part_selected := dset s.part_selected part_key true }

/-- The export `Package` column (lines 2093-2100): the stripped vendor
package when present and truthy, else blank. -/
def exportPackage (mouser_part : MouserPart) : String :=
  match mouser_part.package with
  | some raw => if raw ≠ "" then pyStrip raw else ""
  | none => ""

/-- One export record (lines 2102-2116), joining the original consolidated
part and the confirmed vendor part. -/
def exportRow (original_part : Option ConsPart) (mouser_part : MouserPart) : ExportRow :=
  { REFDES := (original_part.map ConsPart.refdes).getD ""
    Quantity := original_part.map ConsPart.quantity
    Description :=
      match mouser_part.description with
      | some d => d
      | none => (original_part.map ConsPart.description).getD ""
    Package := exportPackage mouser_part
    MPN := mouser_part.mpn.getD ""
    MouserPartNumber := mouser_part.mouser_part_number.getD ""
    Manufacturer := mouser_part.manufacturer.getD ""
    Value := (original_part.map ConsPart.value).getD ""
    Voltage := (original_part.map ConsPart.voltage).getD ""
    Stock := mouser_part.stock.getD 0
    Price :=
      match mouser_part.price_breaks with
      | some (pb :: _) => pb.price.getD ""
      | _ => ""
    Lifecycle := mouser_part.lifecycle.getD ""
    ProductURL := mouser_part.product_url.getD "" }

/-- Model of `get_export_data` (lines 2076-2119): restrict the confirmed
selections to the checked ones (preserving the insertion order of
`selected_parts`) and project each through `exportRow`. -/
def get_export_data (s : Session) : List ExportRow :=
  let checked_parts := s.selected_parts.filter
    (fun kv => (dget kv.1 s.part_selected).getD false)
  checked_parts.map (fun kv => exportRow (_get_part_by_key s kv.1) kv.2)

/-- A sequence of user confirmations applied in order. -/
def applyConfirms (s : Session) (l : List (String × MouserPart)) : Session :=
  l.foldl (fun st kv => confirm_part_selection st kv.1 kv.2) s

/-! ## State snapshot (`save_bom_state` / `load_bom_state`)

The snapshot file holds the `json.dump` of the state dict; `json.load`
returns that document unchanged, so the file content is modelled by a JSON
value and the persistence round trip by encoding to and decoding from it. -/

/-- JSON documents; numbers keep Python's int/float distinction. -/
inductive Json where
  | null : Json
  | b : Bool → Json
  | i : Int → Json
  | q : ℚ → Json
  | s : String → Json
  | arr : List Json → Json
  | obj : List (String × Json) → Json

/-- Emit a key only when the optional field is present, matching a Python
dict that simply lacks absent keys. -/
def optField {α : Type} (k : String) (f : α → Json) : Option α → List (String × Json)
  | some v => [(k, f v)]
  | none => []

/-- JSON image of a price-break dict. -/
def pbToJson (pb : PriceBreak) : Json :=
  Json.obj (optField "quantity" Json.i pb.quantity
    ++ optField "price" Json.s pb.price
    ++ optField "currency" Json.s pb.currency)

/-- JSON image of a vendor-part dict. -/
def mouserToJson (p : MouserPart) : Json :=
  Json.obj (optField "mpn" Json.s p.mpn
    ++ optField "manufacturer" Json.s p.manufacturer
    ++ optField "mouser_part_number" Json.s p.mouser_part_number
    ++ optField "description" Json.s p.description
    ++ optField "data_sheet_url" Json.s p.data_sheet_url
    ++ optField "image_url" Json.s p.image_url
    ++ optField "lifecycle" Json.s p.lifecycle
    ++ optField "rohs_status" Json.s p.rohs_status
    ++ optField "package" Json.s p.package
    ++ optField "stock" Json.i p.stock
    ++ optField "price_breaks" (fun pbs => Json.arr (pbs.map pbToJson)) p.price_breaks
    ++ optField "product_url" Json.s p.product_url
    ++ optField "lead_time" Json.s p.lead_time
    ++ optField "score" Json.q p.score)

/-- JSON image of a raw-row dict. -/
def rowToJson (r : Row) : Json :=
  Json.obj (r.map (fun kv => (kv.1, Json.s kv.2)))

/-- JSON image of a consolidated-part dict, fields in dict insertion
order: the base fields, then the copied additional columns, then the final
`refdes`. -/
def consPartToJson (p : ConsPart) : Json :=
  Json.obj ([("refdes_list", Json.arr (p.refdes_list.map Json.s)),
      ("mpn", Json.s p.mpn), ("value", Json.s p.value),
      ("package", Json.s p.package), ("voltage", Json.s p.voltage),
      ("tolerance", Json.s p.tolerance), ("power", Json.s p.power),
      ("description", Json.s p.description), ("quantity", Json.i p.quantity)]
    ++ p.extra.map (fun kv => (kv.1, Json.s kv.2))
    ++ [("refdes", Json.s p.refdes)])

/-- Model of `save_bom_state` (lines 2249-2281): the state dict written to
the snapshot file, with `save_date` supplied by the caller. -/
def save_bom_state (now : String) (s : Session) : Json :=
  Json.obj [("version", Json.s "1.0"), ("save_date", Json.s now),
    ("consolidated_parts", Json.arr (s.consolidated_parts.map consPartToJson)),
    ("column_mapping", Json.obj (s.column_mapping.map (fun kv => (kv.1, Json.s kv.2)))),
    ("components", Json.arr (s.components.map rowToJson)),
    ("selected_parts", Json.obj (s.selected_parts.map (fun kv => (kv.1, mouserToJson kv.2)))),
    ("part_selected", Json.obj (s.part_selected.map (fun kv => (kv.1, Json.b kv.2)))),
    ("in_stock_only", Json.b s.in_stock_only),
    ("active_only", Json.b s.active_only),
    ("sort_preference", Json.s s.sort_preference),
    ("current_search_results",
      Json.obj (s.current_search_results.map (fun kv => (kv.1, Json.arr (kv.2.map mouserToJson))))),
    ("batch_part_keys", Json.arr (s.batch_part_keys.map Json.s)),
    ("current_batch_index", Json.i s.current_batch_index)]

/-- Decode a JSON string. -/
def decStr : Json → Option String
  | Json.s v => some v
  | _ => none

/-- Decode a JSON integer. -/
def decInt : Json → Option Int
  | Json.i v => some v
  | _ => none

/-- Decode a JSON boolean. -/
def decBool : Json → Option Bool
  | Json.b v => some v
  | _ => none

/-- Decode a JSON float. -/
def decQ : Json → Option ℚ
  | Json.q v => some v
  | _ => none

/-- Decode a JSON array elementwise. -/
def decArr {α : Type} (f : Json → Option α) : Json → Option (List α)
  | Json.arr l => l.mapM f
  | _ => none

/-- Decode a JSON object into an ordered association list. -/
def decObjWith {α : Type} (f : Json → Option α) : Json → Option (List (String × α))
  | Json.obj fields => fields.mapM (fun kv => (f kv.2).map (fun v => (kv.1, v)))
  | _ => none

/-- Read a required object field. -/
def decField {α : Type} (fields : List (String × Json)) (k : String)
    (f : Json → Option α) : Option α :=
  (dget k fields).bind f

/-- Read an optional object field: absence is not an error. -/
def decOptField {α : Type} (fields : List (String × Json)) (k : String)
    (f : Json → Option α) : Option (Option α) :=
  match dget k fields with
  | none => some none
  | some v => (f v).map some

/-- Decode a price-break dict. -/
def decPriceBreak (j : Json) : Option PriceBreak :=
  match j with
  | Json.obj fields => do
      let quantity ← decOptField fields "quantity" decInt
      let price ← decOptField fields "price" decStr
      let currency ← decOptField fields "currency" decStr
      pure { quantity := quantity, price := price, currency := currency }
  | _ => none

/-- Decode a vendor-part dict. -/
def decMouser (j : Json) : Option MouserPart :=
  match j with
  | Json.obj fields => do
      let mpn ← decOptField fields "mpn" decStr
      let manufacturer ← decOptField fields "manufacturer" decStr
      let mouser_part_number ← decOptField fields "mouser_part_number" decStr
      let description ← decOptField fields "description" decStr
      let data_sheet_url ← decOptField fields "data_sheet_url" decStr
      let image_url ← decOptField fields "image_url" decStr
      let lifecycle ← decOptField fields "lifecycle" decStr
      let rohs_status ← decOptField fields "rohs_status" decStr
      let package ← decOptField fields "package" decStr
      let stock ← decOptField fields "stock" decInt
      let price_breaks ← decOptField fields "price_breaks" (decArr decPriceBreak)
      let product_url ← decOptField fields "product_url" decStr
      let lead_time ← decOptField fields "lead_time" decStr
      let score ← decOptField fields "score" decQ
      pure { mpn := mpn, manufacturer := manufacturer,
             mouser_part_number := mouser_part_number, description := description,
             data_sheet_url := data_sheet_url, image_url := image_url,
             lifecycle := lifecycle, rohs_status := rohs_status, package := package,
             stock := stock, price_breaks := price_breaks, product_url := product_url,
             lead_time := lead_time, score := score }
  | _ => none

/-- Decode a raw-row dict. -/
def decRow (j : Json) : Option Row := decObjWith decStr j

/-- Decode a consolidated-part dict: the base fields by name, the
additional columns being every remaining key in document order. -/
def decConsPart (j : Json) : Option ConsPart :=
  match j with
  | Json.obj fields => do
      let refdes_list ← decField fields "refdes_list" (decArr decStr)
      let mpn ← decField fields "mpn" decStr
      let value ← decField fields "value" decStr
      let package ← decField fields "package" decStr
      let voltage ← decField fields "voltage" decStr
      let tolerance ← decField fields "tolerance" decStr
      let power ← decField fields "power" decStr
      let description ← decField fields "description" decStr
      let quantity ← decField fields "quantity" decInt
      let refdes ← decField fields "refdes" decStr
      let extra ← (fields.filter (fun kv => kv.1 ∉ consBaseKeys)).mapM
        (fun kv => (decStr kv.2).map (fun v => (kv.1, v)))
      pure { refdes_list := refdes_list, mpn := mpn, value := value,
             package := package, voltage := voltage, tolerance := tolerance,
             power := power, description := description, quantity := quantity,
             extra := extra, refdes := refdes }
  | _ => none

/-- Read an optional snapshot section, keeping the current value of the
session when the key is absent (the `if key in state_data` guards of
`load_bom_state`). -/
def loadField {α : Type} (fields : List (String × Json)) (k : String)
    (f : Json → Option α) (dflt : α) : Option α :=
  match dget k fields with
  | none => some dflt
  | some v => f v

/-- Model of `load_bom_state` (lines 2305-2370): a non-object document or
a missing `consolidated_parts` section is an error leaving the session
untouched (`none`); every other section is restored when present, and the
`part_key_to_index` mapping is rebuilt by enumerating the restored parts. -/
def load_bom_state (j : Json) (s : Session) : Option Session :=
  match j with
  | Json.obj fields => do
      let consolidated_parts ← decField fields "consolidated_parts" (decArr decConsPart)
      let column_mapping ← loadField fields "column_mapping" (decObjWith decStr) s.column_mapping
      let components ← loadField fields "components" (decArr decRow) s.components
      let part_key_to_index :=
        (List.range consolidated_parts.length).map (fun idx => (_generate_part_key idx, idx))
      let part_selected ← loadField fields "part_selected" (decObjWith decBool) s.part_selected
      let selected_parts ← loadField fields "selected_parts" (decObjWith decMouser) s.selected_parts
      let in_stock_only ← loadField fields "in_stock_only" decBool s.in_stock_only
      let active_only ← loadField fields "active_only" decBool s.active_only
      let sort_preference ← loadField fields "sort_preference" decStr s.sort_preference
      let current_search_results ← loadField fields "current_search_results"
        (decObjWith (decArr decMouser)) s.current_search_results
      let batch_part_keys ← loadField fields "batch_part_keys" (decArr decStr) s.batch_part_keys
      let current_batch_index ← loadField fields "current_batch_index" decInt s.current_batch_index
      pure { components := components, consolidated_parts := consolidated_parts,
             column_mapping := column_mapping, selected_parts := selected_parts,
             part_selected := part_selected, in_stock_only := in_stock_only,
             active_only := active_only, sort_preference := sort_preference,
             current_search_results := current_search_results,
             batch_part_keys := batch_part_keys,
             current_batch_index := current_batch_index,
             part_key_to_index := part_key_to_index }
  | _ => none

/-- Well-formedness of the additional columns of a consolidated part: their
keys avoid the base field names.  This holds for every part built by
`get_consolidated_parts`, whose extra-copy loop skips keys already present
in the group dict. -/
def extraKeysWF (p : ConsPart) : Prop :=
  ∀ kv ∈ p.extra, kv.1 ∉ consBaseKeys

/-! ## Concrete data used by witnesses and counterexamples -/

/-- A fallback hash function in the decimal namespace, one admissible
instantiation of `str(hash(...))`. -/
def hashKeyZero : Row → String := fun _ => "0"

/-- Concrete consolidated part number 0 (refdes "R1"). -/
def cexPart0 : ConsPart :=
  { refdes_list := ["R1"], mpn := "MPN0", value := "10k", package := "0603",
    voltage := "", tolerance := "", power := "", description := "",
    quantity := 1, extra := [], refdes := "R1" }

/-- Concrete consolidated part number 1 (refdes "R2"). -/
def cexPart1 : ConsPart :=
  { refdes_list := ["R2"], mpn := "MPN1", value := "22k", package := "0603",
    voltage := "", tolerance := "", power := "", description := "",
    quantity := 1, extra := [], refdes := "R2" }

/-- A freshly loaded two-part session with no selections. -/
def cexSession : Session :=
  { components := []
    consolidated_parts := [cexPart0, cexPart1]
    column_mapping := []
    selected_parts := []
    part_selected := [("part_0", false), ("part_1", false)]
    in_stock_only := true
    active_only := true
    sort_preference := "stock"
    current_search_results := []
    batch_part_keys := []
    current_batch_index := 0
    part_key_to_index := [("part_0", 0), ("part_1", 1)] }

/-- A concrete vendor candidate. -/
def cexCandA : MouserPart :=
  { mpn := some "CAND-A", manufacturer := some "MfrA",
    mouser_part_number := some "123-A", description := some "part A",
    data_sheet_url := none, image_url := none, lifecycle := some "New Product",
    rohs_status := none, package := some "0603", stock := some 100,
    price_breaks := none, product_url := none, lead_time := none, score := none }

/-- A second concrete vendor candidate. -/
def cexCandB : MouserPart :=
  { mpn := some "CAND-B", manufacturer := some "MfrB",
    mouser_part_number := some "123-B", description := some "part B",
    data_sheet_url := none, image_url := none, lifecycle := some "New Product",
    rohs_status := none, package := some "0603", stock := some 7,
    price_breaks := none, product_url := none, lead_time := none, score := none }

/-- A candidate with zero stock and no other data (spec scenario input). -/
def stockZeroCand : MouserPart :=
  { mpn := some "Z", manufacturer := none, mouser_part_number := none,
    description := none, data_sheet_url := none, image_url := none,
    lifecycle := none, rohs_status := none, package := none, stock := some 0,
    price_breaks := none, product_url := none, lead_time := none, score := none }

/-- A candidate with stock 3 and no other data (spec scenario input). -/
def stockThreeCand : MouserPart :=
  { mpn := some "T", manufacturer := none, mouser_part_number := none,
    description := none, data_sheet_url := none, image_url := none,
    lifecycle := none, rohs_status := none, package := none, stock := some 3,
    price_breaks := none, product_url := none, lead_time := none, score := none }

/-- Per-row quantity contribution as described by the amended claim
wording for the Consolidation Engine: a quantity field that passes
`isdigit()` and parses to a positive integer n contributes n; a missing,
unparsable, or zero-valued field contributes exactly 1. -/
def qtyContributionSpec (comp : Row) : Int :=
  match dget "quantity" comp with
  | none => 1
  | some s =>
      if isDigitStr s ∧ 0 < digitsToNat s.toList then (digitsToNat s.toList : Int)
      else 1

/-- Two raw rows sharing mpn "A", with quantities 2 and 3. -/
def qtyDemoRows : List Row :=
  [[("mpn", "A"), ("refdes", "R1"), ("quantity", "2")],
   [("mpn", "A"), ("refdes", "R2"), ("quantity", "3")]]

/-! ## Utility lemmas -/

theorem dget_dset_self {α : Type} (d : List (String × α)) (k : String) (v : α) :
    dget k (dset d k v) = some v := by
  induction d with
  | nil => simp [dget, dset]
  | cons kv l ih =>
      by_cases h : kv.1 = k
      · simp [dget, dset, h]
      · simp [dget, dset, h, ih]

theorem dget_dset_ne {α : Type} (d : List (String × α)) (k k' : String) (v : α)
    (h : k' ≠ k) : dget k' (dset d k v) = dget k' d := by
  have hks : ¬ k = k' := fun hh => h hh.symm
  induction d with
  | nil => simp [dget, dset, hks]
  | cons kv l ih =>
      by_cases hk : kv.1 = k
      · simp [dget, dset, hk, hks]
      · by_cases hk' : kv.1 = k'
        · simp [dget, dset, hk, hk', hks, h]
        · simp [dget, dset, hk, hk', ih]

theorem dset_map_fst {α : Type} (d : List (String × α)) (k : String) (v : α) :
    (dset d k v).map Prod.fst = insertUnique (d.map Prod.fst) k := by
  induction d with
  | nil => simp [dset, insertUnique]
  | cons kv l ih =>
      by_cases h : kv.1 = k
      · simp [dset, h, insertUnique]
      · have hne : ¬ k = kv.1 := fun hh => h hh.symm
        simp only [dset, if_neg h, List.map_cons, insertUnique, List.mem_cons, ih]
        by_cases hm : k ∈ l.map Prod.fst
        · simp [hm, hne]
        · simp [hm, hne]

theorem mem_dset_self {α : Type} (d : List (String × α)) (k : String) (v : α) :
    (k, v) ∈ dset d k v := by
  induction d with
  | nil => simp [dset]
  | cons kv l ih =>
      by_cases h : kv.1 = k
      · simp [dset, h]
      · simp [dset, h, ih]

theorem mem_insertUnique {α : Type} [DecidableEq α] (l : List α) (a x : α) :
    x ∈ insertUnique l a ↔ x ∈ l ∨ x = a := by
  unfold insertUnique
  by_cases h : a ∈ l
  · simp only [if_pos h]
    constructor
    · exact Or.inl
    · rintro (hx | rfl)
      · exact hx
      · exact h
  · simp [if_neg h]

theorem mem_firstSeen_aux {α : Type} [DecidableEq α] (l : List α) (acc : List α) (x : α) :
    x ∈ l.foldl insertUnique acc ↔ x ∈ acc ∨ x ∈ l := by
  induction l generalizing acc with
  | nil => simp
  | cons a l ih =>
      simp only [List.foldl_cons, ih, mem_insertUnique, List.mem_cons]
      tauto

theorem mem_firstSeen {α : Type} [DecidableEq α] (l : List α) (x : α) :
    x ∈ firstSeen l ↔ x ∈ l := by
  unfold firstSeen
  rw [mem_firstSeen_aux]
  simp

theorem sInsert_perm {α : Type} (lt : α → α → Bool) (a : α) (l : List α) :
    (sInsert lt a l).Perm (a :: l) := by
  induction l with
  | nil => simp [sInsert]
  | cons b l ih =>
      unfold sInsert
      by_cases h : lt b a
      · simpa [h] using ((ih.cons b).trans (List.Perm.swap a b l))
      · simp [h]

theorem sSort_perm {α : Type} (lt : α → α → Bool) (l : List α) :
    (sSort lt l).Perm l := by
  induction l with
  | nil => simp [sSort]
  | cons a l ih =>
      exact (sInsert_perm lt a (sSort lt l)).trans (ih.cons a)

theorem sInsert_pairwise {α κ : Type} [LinearOrder κ] (key : α → κ) (a : α)
    (l : List α) (hl : l.Pairwise (fun x y => key x ≤ key y)) :
    (sInsert (keyLt key) a l).Pairwise (fun x y => key x ≤ key y) := by
  induction l with
  | nil => simp [sInsert]
  | cons b l ih =>
      rcases List.pairwise_cons.mp hl with ⟨hb, hl'⟩
      unfold sInsert
      by_cases h : keyLt key b a
      · have hba : key b < key a := of_decide_eq_true h
        rw [if_pos h]
        refine List.pairwise_cons.mpr ⟨?_, ih hl'⟩
        intro y hy
        rcases List.mem_cons.mp (((sInsert_perm (keyLt key) a l).mem_iff).mp hy) with
          rfl | hy'
        · exact le_of_lt hba
        · exact hb y hy'
      · have hba : ¬ key b < key a := fun hc => h (decide_eq_true hc)
        rw [if_neg h]
        refine List.pairwise_cons.mpr ⟨?_, hl⟩
        intro y hy
        rcases List.mem_cons.mp hy with hy | hy
        · exact hy ▸ le_of_not_lt hba
        · exact le_trans (le_of_not_lt hba) (hb y hy)

theorem sSort_pairwise {α κ : Type} [LinearOrder κ] (key : α → κ) (l : List α) :
    (sSort (keyLt key) l).Pairwise (fun x y => key x ≤ key y) := by
  induction l with
  | nil => simp [sSort]
  | cons a l ih => exact sInsert_pairwise key a (sSort (keyLt key) l) ih

theorem sSort_of_pairwise {α κ : Type} [LinearOrder κ] (key : α → κ) (l : List α)
    (h : l.Pairwise (fun x y => key x ≤ key y)) : sSort (keyLt key) l = l := by
  induction l with
  | nil => simp [sSort]
  | cons a l ih =>
      rcases List.pairwise_cons.mp h with ⟨ha, hl⟩
      unfold sSort
      rw [ih hl]
      cases l with
      | nil => simp [sInsert]
      | cons b l' =>
          have : ¬ keyLt key b a := by
            have := ha b (by simp)
            simp [keyLt, not_lt.mpr this]
          simp [sInsert, this]

theorem map_eq_self_of_mem {α : Type} (f : α → α) (l : List α)
    (h : ∀ x ∈ l, f x = x) : l.map f = l := by
  induction l with
  | nil => simp
  | cons a l ih =>
      simp only [List.map_cons, h a (by simp)]
      rw [ih (fun x hx => h x (by simp [hx]))]

/-! ## Dict and key lemmas for consolidation -/

theorem dget_append {α : Type} (l1 l2 : List (String × α)) (k : String) :
    dget k (l1 ++ l2) =
      match dget k l1 with
      | some v => some v
      | none => dget k l2 := by
  induction l1 with
  | nil => simp [dget]
  | cons kv l ih =>
      by_cases h : kv.1 = k
      · simp [dget, h]
      · simp [dget, h, ih]

theorem dget_eq_none_iff {α : Type} (d : List (String × α)) (k : String) :
    dget k d = none ↔ k ∉ d.map Prod.fst := by
  induction d with
  | nil => simp [dget]
  | cons kv l ih =>
      by_cases h : kv.1 = k
      · simp [dget, h]
      · rw [dget, if_neg h, List.map_cons, ih]
        constructor
        · intro hn hmem
          rcases List.mem_cons.mp hmem with hh | hmem'
          · exact h hh.symm
          · exact hn hmem'
        · intro hn hmem
          exact hn (List.mem_cons_of_mem _ hmem)

theorem dget_some_mem {α : Type} (d : List (String × α)) (k : String) (v : α)
    (h : dget k d = some v) : (k, v) ∈ d := by
  induction d with
  | nil => simp [dget] at h
  | cons kv l ih =>
      obtain ⟨k1, v1⟩ := kv
      by_cases hk : k1 = k
      · rw [dget] at h
        simp only [hk, if_pos] at h
        subst hk
        injection h with h
        subst h
        exact List.mem_cons_self _ _
      · rw [dget] at h
        simp only [hk, if_false, ite_false] at h
        exact List.mem_cons_of_mem _ (ih h)

theorem dget_of_mem_nodup {α : Type} (d : List (String × α)) (k : String) (v : α)
    (hmem : (k, v) ∈ d) (hnd : (d.map Prod.fst).Nodup) : dget k d = some v := by
  induction d with
  | nil => simp at hmem
  | cons kv l ih =>
      rw [List.map_cons, List.nodup_cons] at hnd
      rcases List.mem_cons.mp hmem with rfl | hmem'
      · simp [dget]
      · have hk : kv.1 ≠ k := by
          intro hh
          exact hnd.1 (hh ▸ List.mem_map_of_mem Prod.fst hmem')
        rw [dget, if_neg hk]
        exact ih hmem' hnd.2

theorem insertUnique_nodup {α : Type} [DecidableEq α] (l : List α) (x : α)
    (h : l.Nodup) : (insertUnique l x).Nodup := by
  unfold insertUnique
  by_cases hm : x ∈ l
  · simpa [hm] using h
  · simp [hm, List.nodup_append, h]

theorem foldl_insertUnique_nodup {α : Type} [DecidableEq α] (l : List α)
    (acc : List α) (h : acc.Nodup) : (l.foldl insertUnique acc).Nodup := by
  induction l generalizing acc with
  | nil => simpa using h
  | cons a l ih => exact ih (insertUnique acc a) (insertUnique_nodup acc a h)

theorem firstSeen_nodup {α : Type} [DecidableEq α] (l : List α) :
    (firstSeen l).Nodup :=
  foldl_insertUnique_nodup l [] List.nodup_nil

/-! ## Consolidation characterization -/

theorem addRow_quantity (p : ConsPart) (c : Row) :
    (addRow p c).quantity = p.quantity + qtyContribution c := by
  unfold addRow
  by_cases h : rowRefdes c ≠ "" ∧ rowRefdes c ∉ p.refdes_list <;> simp [h]

theorem addRow_refdes_list (p : ConsPart) (c : Row) :
    (addRow p c).refdes_list = refdesStep p.refdes_list c := by
  unfold addRow refdesStep
  by_cases h : rowRefdes c ≠ "" ∧ rowRefdes c ∉ p.refdes_list <;> simp [h]

theorem addRow_mpn (p : ConsPart) (c : Row) : (addRow p c).mpn = p.mpn := by
  unfold addRow
  by_cases h : rowRefdes c ≠ "" ∧ rowRefdes c ∉ p.refdes_list <;> simp [h]

theorem foldl_addRow_quantity (rows : List Row) (p : ConsPart) :
    (rows.foldl addRow p).quantity = p.quantity + (rows.map qtyContribution).sum := by
  induction rows generalizing p with
  | nil => simp
  | cons c rows ih =>
      simp only [List.foldl_cons, ih, addRow_quantity, List.map_cons, List.sum_cons]
      ring

theorem foldl_addRow_refdes_list (rows : List Row) (p : ConsPart) :
    (rows.foldl addRow p).refdes_list = rows.foldl refdesStep p.refdes_list := by
  induction rows generalizing p with
  | nil => simp
  | cons c rows ih => simp only [List.foldl_cons, ih, addRow_refdes_list]

theorem foldl_addRow_mpn (rows : List Row) (p : ConsPart) :
    (rows.foldl addRow p).mpn = p.mpn := by
  induction rows generalizing p with
  | nil => simp
  | cons c rows ih => simp only [List.foldl_cons, ih, addRow_mpn]

theorem consStep_some (hashKey : Row → String) (acc : List (String × ConsPart))
    (c : Row) (p : ConsPart) (h : dget (groupKey hashKey c) acc = some p) :
    consStep hashKey acc c = dset acc (groupKey hashKey c) (addRow p c) := by
  simp only [consStep]
  rw [h]

theorem consStep_none (hashKey : Row → String) (acc : List (String × ConsPart))
    (c : Row) (h : dget (groupKey hashKey c) acc = none) :
    consStep hashKey acc c =
      acc ++ [(groupKey hashKey c,
        addRow (newPart (rowMpn c) (rowValue c) (rowPackage c) c) c)] := by
  simp only [consStep]
  rw [h]

theorem foldl_consStep_lookup (hashKey : Row → String) (comps : List Row)
    (acc : List (String × ConsPart)) (k : String) :
    dget k (comps.foldl (consStep hashKey) acc) =
      match dget k acc, comps.filter (fun c => groupKey hashKey c = k) with
      | some p, rows => some (rows.foldl addRow p)
      | none, [] => none
      | none, c :: rest =>
          some ((c :: rest).foldl addRow
            (newPart (rowMpn c) (rowValue c) (rowPackage c) c)) := by
  induction comps generalizing acc with
  | nil =>
      cases h : dget k acc <;> simp [h]
  | cons c comps ih =>
      rw [List.foldl_cons]
      by_cases hk : groupKey hashKey c = k
      · subst hk
        have hfil : (c :: comps).filter (fun x => groupKey hashKey x = groupKey hashKey c) =
            c :: comps.filter (fun x => groupKey hashKey x = groupKey hashKey c) := by
          simp [List.filter_cons]
        rw [hfil]
        cases hacc : dget (groupKey hashKey c) acc with
        | some p =>
            rw [consStep_some hashKey acc c p hacc, ih, dget_dset_self]
            simp [hacc]
        | none =>
            rw [consStep_none hashKey acc c hacc, ih, dget_append, hacc]
            simp [dget]
      · have hfil : (c :: comps).filter (fun x => groupKey hashKey x = k) =
            comps.filter (fun x => groupKey hashKey x = k) := by
          simp [List.filter_cons, hk]
        rw [hfil, ih]
        suffices h' : dget k (consStep hashKey acc c) = dget k acc by rw [h']
        cases hacc : dget (groupKey hashKey c) acc with
        | some p =>
            rw [consStep_some hashKey acc c p hacc]
            exact dget_dset_ne acc (groupKey hashKey c) k (addRow p c)
              (fun hh => hk hh.symm)
        | none =>
            rw [consStep_none hashKey acc c hacc, dget_append]
            cases h2 : dget k acc <;> simp [dget, hk]

theorem foldl_consStep_map_fst (hashKey : Row → String) (comps : List Row)
    (acc : List (String × ConsPart)) :
    (comps.foldl (consStep hashKey) acc).map Prod.fst =
      (comps.map (groupKey hashKey)).foldl insertUnique (acc.map Prod.fst) := by
  induction comps generalizing acc with
  | nil => simp
  | cons c comps ih =>
      rw [List.foldl_cons, ih, List.map_cons, List.foldl_cons]
      have hstep : (consStep hashKey acc c).map Prod.fst =
          insertUnique (acc.map Prod.fst) (groupKey hashKey c) := by
        cases hacc : dget (groupKey hashKey c) acc with
        | some p => rw [consStep_some hashKey acc c p hacc, dset_map_fst]
        | none =>
            rw [consStep_none hashKey acc c hacc]
            have hnm := (dget_eq_none_iff acc (groupKey hashKey c)).mp hacc
            simp [insertUnique, hnm]
      rw [hstep]

theorem consolidateAcc_map_fst (hashKey : Row → String) (comps : List Row) :
    (consolidateAcc hashKey comps).map Prod.fst =
      firstSeen (comps.map (groupKey hashKey)) := by
  unfold consolidateAcc firstSeen
  simpa using foldl_consStep_map_fst hashKey comps []

theorem consolidateAcc_keys_nodup (hashKey : Row → String) (comps : List Row) :
    ((consolidateAcc hashKey comps).map Prod.fst).Nodup := by
  rw [consolidateAcc_map_fst]
  exact firstSeen_nodup _

theorem consolidateAcc_lookup (hashKey : Row → String) (comps : List Row) (k : String) :
    dget k (consolidateAcc hashKey comps) =
      match comps.filter (fun c => groupKey hashKey c = k) with
      | [] => none
      | c :: rest =>
          some ((c :: rest).foldl addRow
            (newPart (rowMpn c) (rowValue c) (rowPackage c) c)) := by
  unfold consolidateAcc
  rw [foldl_consStep_lookup]
  have h0 : dget (α := ConsPart) k [] = none := rfl
  rw [h0]
  cases h : comps.filter (fun c => groupKey hashKey c = k) <;> simp

/-! ## Grouping-key namespace facts -/

theorem string_append_left_inj (s a b : String) (h : s ++ a = s ++ b) : a = b := by
  have hd := congrArg String.data h
  rw [String.data_append, String.data_append] at hd
  exact String.ext (List.append_cancel_left hd)

theorem value_key_ne_mpn_key (x m : String) : "value:" ++ x ≠ "mpn:" ++ m := by
  intro h
  have hd := congrArg String.data h
  rw [String.data_append, String.data_append] at hd
  have hv : ("value:".data) = ['v', 'a', 'l', 'u', 'e', ':'] := by decide
  have hm2 : ("mpn:".data) = ['m', 'p', 'n', ':'] := by decide
  rw [hv, hm2] at hd
  simp at hd

theorem groupKey_of_mpn (hashKey : Row → String) (c : Row) (h : rowMpn c ≠ "") :
    groupKey hashKey c = "mpn:" ++ rowMpn c := by
  simp only [groupKey]
  rw [if_pos h]

theorem groupKey_eq_mpn_iff (hashKey : Row → String)
    (hHash : ∀ c s, hashKey c ≠ "mpn:" ++ s) (c : Row) (m : String) (hm : m ≠ "") :
    groupKey hashKey c = "mpn:" ++ m ↔ rowMpn c = m := by
  constructor
  · intro h
    by_cases h1 : rowMpn c ≠ ""
    · rw [groupKey_of_mpn hashKey c h1] at h
      exact string_append_left_inj "mpn:" _ _ h
    · exfalso
      rw [not_not] at h1
      simp only [groupKey, h1] at h
      rw [if_neg (by simp)] at h
      by_cases h2 : rowValue c ≠ "" ∧ rowPackage c ≠ ""
      · rw [if_pos h2] at h
        rw [String.append_assoc, String.append_assoc] at h
        exact value_key_ne_mpn_key _ m h
      · rw [if_neg h2] at h
        by_cases h3 : rowValue c ≠ ""
        · rw [if_pos h3] at h
          exact value_key_ne_mpn_key _ m h
        · rw [if_neg h3] at h
          exact hHash c m h
  · intro h
    have h1 : rowMpn c ≠ "" := by rw [h]; exact hm
    rw [groupKey_of_mpn hashKey c h1, h]

theorem hashKeyZero_ne_mpn : ∀ c s, hashKeyZero c ≠ "mpn:" ++ s := by
  intro c s h
  have hd := congrArg String.data h
  rw [String.data_append] at hd
  have h0 : (("0" : String).data) = ['0'] := by decide
  have hm2 : ("mpn:".data) = ['m', 'p', 'n', ':'] := by decide
  rw [show hashKeyZero c = "0" from rfl] at hd
  rw [h0, hm2] at hd
  simp at hd

theorem consolidateAcc_dget_of_mem (hashKey : Row → String) (comps : List Row)
    (k : String) (p : ConsPart) (h : (k, p) ∈ consolidateAcc hashKey comps) :
    dget k (consolidateAcc hashKey comps) = some p :=
  dget_of_mem_nodup _ _ _ h (consolidateAcc_keys_nodup hashKey comps)

theorem mem_consolidateAcc_spec (hashKey : Row → String) (comps : List Row)
    (k : String) (p : ConsPart) (hmem : (k, p) ∈ consolidateAcc hashKey comps) :
    ∃ c rest, comps.filter (fun x => groupKey hashKey x = k) = c :: rest ∧
      groupKey hashKey c = k ∧ p.mpn = rowMpn c ∧
      p.quantity = ((c :: rest).map qtyContribution).sum ∧
      p.refdes_list = collectRefdes (c :: rest) := by
  have hd := consolidateAcc_dget_of_mem hashKey comps k p hmem
  rw [consolidateAcc_lookup] at hd
  cases hfil : comps.filter (fun x => groupKey hashKey x = k) with
  | nil => rw [hfil] at hd; simp at hd
  | cons c rest =>
      rw [hfil] at hd
      simp only [Option.some.injEq] at hd
      refine ⟨c, rest, rfl, ?_, ?_, ?_, ?_⟩
      · have hc : c ∈ comps.filter (fun x => groupKey hashKey x = k) := by
          rw [hfil]; exact List.mem_cons_self _ _
        have := (List.mem_filter.mp hc).2
        exact of_decide_eq_true this
      · rw [← hd, foldl_addRow_mpn]
        rfl
      · rw [← hd, foldl_addRow_quantity]
        simp [newPart]
      · rw [← hd, foldl_addRow_refdes_list]
        rfl

/-- Claim C4: rows sharing a non-empty mpn form exactly one consolidated
part whose `refdes` is the comma-join of the distinct contributing stripped
reference designators in first-seen order, and groups are emitted in
first-seen key order.  Stated for every fallback hash whose keys avoid the
`"mpn:"` namespace, which holds of the decimal `str(hash(...))` strings. -/
theorem mpn_grouping_refdes_order (hashKey : Row → String)
    (hHash : ∀ c s, hashKey c ≠ "mpn:" ++ s) (comps : List Row) (m : String)
    (hm : m ≠ "") (hex : ∃ c ∈ comps, rowMpn c = m) :
    (∃ p ∈ get_consolidated_parts hashKey comps,
        p.mpn = m ∧
        p.refdes = joinComma (collectRefdes (comps.filter (fun c => rowMpn c = m))) ∧
        ∀ q ∈ get_consolidated_parts hashKey comps, q.mpn = m → q = p)
    ∧ (consolidateAcc hashKey comps).map Prod.fst =
        firstSeen (comps.map (groupKey hashKey)) := by
  have hfeq : comps.filter (fun c => groupKey hashKey c = "mpn:" ++ m) =
      comps.filter (fun c => rowMpn c = m) := by
    apply List.filter_congr
    intro c _
    simp only [decide_eq_decide]
    exact groupKey_eq_mpn_iff hashKey hHash c m hm
  constructor
  · obtain ⟨c0, hc0mem, hc0⟩ := hex
    have hne : comps.filter (fun c => rowMpn c = m) ≠ [] := by
      intro hnil
      have : c0 ∈ comps.filter (fun c => rowMpn c = m) :=
        List.mem_filter.mpr ⟨hc0mem, by simp [hc0]⟩
      rw [hnil] at this
      simp at this
    obtain ⟨c, rest, hcr⟩ : ∃ c rest, comps.filter (fun c => rowMpn c = m) = c :: rest := by
      cases hf : comps.filter (fun c => rowMpn c = m) with
      | nil => exact absurd hf hne
      | cons c rest => exact ⟨c, rest, rfl⟩
    have hlook : dget ("mpn:" ++ m) (consolidateAcc hashKey comps) =
        some ((c :: rest).foldl addRow
          (newPart (rowMpn c) (rowValue c) (rowPackage c) c)) := by
      rw [consolidateAcc_lookup, hfeq, hcr]
    set p0 := (c :: rest).foldl addRow (newPart (rowMpn c) (rowValue c) (rowPackage c) c)
      with hp0
    have hmem0 : ("mpn:" ++ m, p0) ∈ consolidateAcc hashKey comps :=
      dget_some_mem _ _ _ hlook
    refine ⟨{ p0 with refdes := joinComma p0.refdes_list }, ?_, ?_, ?_, ?_⟩
    · exact List.mem_map_of_mem _ hmem0
    · show p0.mpn = m
      rw [hp0, foldl_addRow_mpn]
      show rowMpn c = m
      have hc : c ∈ comps.filter (fun c => rowMpn c = m) := by
        rw [hcr]; exact List.mem_cons_self _ _
      exact of_decide_eq_true (List.mem_filter.mp hc).2
    · show joinComma p0.refdes_list = _
      rw [hp0, foldl_addRow_refdes_list]
      rw [hcr]
      rfl
    · intro q hq hqm
      obtain ⟨⟨k', q0⟩, hkq, rfl⟩ := List.mem_map.mp hq
      obtain ⟨c', rest', hfil', hkey', hmpn', _, _⟩ :=
        mem_consolidateAcc_spec hashKey comps k' q0 hkq
      have hq0m : q0.mpn = m := hqm
      have hc'm : rowMpn c' = m := by rw [← hmpn', hq0m]
      have hk' : k' = "mpn:" ++ m := by
        rw [← hkey', groupKey_of_mpn hashKey c' (by rw [hc'm]; exact hm), hc'm]
      have : dget ("mpn:" ++ m) (consolidateAcc hashKey comps) = some q0 := by
        rw [← hk']
        exact consolidateAcc_dget_of_mem hashKey comps k' q0 hkq
      rw [hlook] at this
      simp only [Option.some.injEq] at this
      rw [this]
  · exact consolidateAcc_map_fst hashKey comps

/-- Witness for `mpn_grouping_refdes_order` at a concrete two-row BOM. -/
theorem mpn_grouping_refdes_order_witness :
    (∃ p ∈ get_consolidated_parts hashKeyZero qtyDemoRows,
        p.mpn = "A" ∧
        p.refdes = joinComma (collectRefdes (qtyDemoRows.filter (fun c => rowMpn c = "A"))) ∧
        ∀ q ∈ get_consolidated_parts hashKeyZero qtyDemoRows, q.mpn = "A" → q = p)
    ∧ (consolidateAcc hashKeyZero qtyDemoRows).map Prod.fst =
        firstSeen (qtyDemoRows.map (groupKey hashKeyZero)) :=
  mpn_grouping_refdes_order hashKeyZero hashKeyZero_ne_mpn qtyDemoRows "A"
    (by decide) (by decide)

theorem qtyContribution_eq_spec (c : Row) :
    qtyContribution c = qtyContributionSpec c := by
  unfold qtyContribution qtyContributionSpec
  cases dget "quantity" c with
  | none => rfl
  | some s =>
      by_cases hd : isDigitStr s
      · by_cases hz : digitsToNat s.toList ≠ 0
        · simp only [hd, if_true, true_and]
          rw [if_pos hz, if_pos (Nat.pos_of_ne_zero hz)]
        · rw [not_not] at hz
          simp only [hd, if_true, true_and]
          rw [if_neg (not_not.mpr hz), if_neg (fun h => (Nat.pos_iff_ne_zero.mp h) hz)]
      · simp [hd]

/-- Claim C3 (amended): for every group of raw rows consolidated into one
part — whether keyed by mpn, by value/package, or by the hash fallback —
the part's quantity is the sum of per-row contributions over exactly the
rows of that group, where a quantity field parsing (`isdigit`) to a
positive integer n contributes n and a missing, unparsable, or zero field
contributes exactly 1 (`qtyContributionSpec`); the source's accumulation
agrees with that contribution row by row. -/
theorem consolidated_quantity_sum (hashKey : Row → String) (comps : List Row) :
    (∀ c, qtyContribution c = qtyContributionSpec c)
    ∧ (∀ kv ∈ consolidateAcc hashKey comps,
        kv.2.quantity =
          ((comps.filter (fun c => groupKey hashKey c = kv.1)).map
            qtyContributionSpec).sum)
    ∧ (∀ p ∈ get_consolidated_parts hashKey comps, ∃ k,
        comps.filter (fun c => groupKey hashKey c = k) ≠ []
        ∧ p.quantity =
            ((comps.filter (fun c => groupKey hashKey c = k)).map
              qtyContributionSpec).sum) := by
  have hfun : qtyContribution = qtyContributionSpec := funext qtyContribution_eq_spec
  have h2 : ∀ kv ∈ consolidateAcc hashKey comps,
      kv.2.quantity =
        ((comps.filter (fun c => groupKey hashKey c = kv.1)).map
          qtyContributionSpec).sum := by
    intro kv hkv
    obtain ⟨k, p⟩ := kv
    obtain ⟨c0, rest, hfil, _, _, hqty, _⟩ :=
      mem_consolidateAcc_spec hashKey comps k p hkv
    show p.quantity = _
    rw [hfil, hqty, hfun]
  refine ⟨qtyContribution_eq_spec, h2, ?_⟩
  intro p hp
  obtain ⟨⟨k, q0⟩, hkq, rfl⟩ := List.mem_map.mp hp
  refine ⟨k, ?_, ?_⟩
  · obtain ⟨c0, rest, hfil, _, _, _, _⟩ :=
      mem_consolidateAcc_spec hashKey comps k q0 hkq
    rw [hfil]
    simp
  · show q0.quantity = _
    exact h2 (k, q0) hkq

/-- Counterexample to claim C3 as stated: the row quantity field `"0"`
parses (`isdigit`) to the integer 0, so the claim predicts a group
quantity of 0; the code treats the parsed zero as falsy (`qty if qty
else 1`) and the group quantity is 1. -/
theorem consolidated_quantity_counterexample :
    (get_consolidated_parts hashKeyZero [[("mpn", "A"), ("quantity", "0")]]).map
        ConsPart.quantity = [1]
    ∧ (get_consolidated_parts hashKeyZero [[("mpn", "A"), ("quantity", "0")]]).map
        ConsPart.quantity ≠ [0] := by
  decide

/-- Witness for `consolidated_quantity_sum` at a concrete two-row BOM with
quantities 2 and 3, evaluated on the group dict entry for key "mpn:A". -/
theorem consolidated_quantity_sum_witness :
    ({ refdes_list := ["R1", "R2"], mpn := "A", value := "", package := "",
       voltage := "", tolerance := "", power := "", description := "",
       quantity := 5, extra := [], refdes := "" } : ConsPart).quantity =
      ((qtyDemoRows.filter (fun c => groupKey hashKeyZero c = "mpn:A")).map
        qtyContributionSpec).sum :=
  (consolidated_quantity_sum hashKeyZero qtyDemoRows).2.1
    ("mpn:A",
      { refdes_list := ["R1", "R2"], mpn := "A", value := "", package := "",
        voltage := "", tolerance := "", power := "", description := "",
        quantity := 5, extra := [], refdes := "" })
    (by decide)

/-! ## Parser row-dropping facts -/

theorem filterMap_cons_of_none {α β : Type} (f : α → Option β) (a : α) (l : List α)
    (h : f a = none) : List.filterMap f (a :: l) = List.filterMap f l := by
  simp [List.filterMap_cons, h]

theorem parse_csv_rows_keeps_nonempty (headers : List String)
    (rows : List (List String)) (comp : Row) (hmem : comp ∈ parse_csv_rows headers rows) :
    ∃ kv ∈ comp, kv.2 ≠ "" := by
  rw [parse_csv_rows, List.mem_filterMap] at hmem
  obtain ⟨row, _, hf⟩ := hmem
  dsimp only at hf
  split at hf
  · split at hf
    · rename_i hcond
      injection hf with hf
      subst hf
      obtain ⟨kv, hkv, hne⟩ := List.any_eq_true.mp hcond.2
      exact ⟨kv, hkv, bne_iff_ne.mp hne⟩
    · exact absurd hf (by simp)
  · exact absurd hf (by simp)

theorem parse_csv_rows_drop (headers : List String) (row : List String)
    (rest : List (List String)) (h : ∀ cell ∈ row, pyStrip cell = "") :
    parse_csv_rows headers (row :: rest) = parse_csv_rows headers rest := by
  unfold parse_csv_rows
  apply filterMap_cons_of_none
  dsimp only
  split
  · rw [if_neg]
    intro hcond
    obtain ⟨kv, hkv, hne⟩ := List.any_eq_true.mp hcond.2
    apply bne_iff_ne.mp hne
    unfold csvComponent at hkv
    obtain ⟨⟨hh, cell⟩, hz, rfl⟩ := List.mem_map.mp hkv
    exact h cell (List.of_mem_zip hz).2
  · rfl

theorem parse_excel_rows_keeps_nonempty (headers : List String)
    (rows : List (List (Option String))) (comp : Row)
    (hmem : comp ∈ parse_excel_rows headers rows) : ∃ kv ∈ comp, kv.2 ≠ "" := by
  rw [parse_excel_rows, List.mem_filterMap] at hmem
  obtain ⟨row, _, hf⟩ := hmem
  dsimp only at hf
  split at hf
  · split at hf
    · rename_i hcond
      injection hf with hf
      subst hf
      obtain ⟨kv, hkv, hne⟩ := List.any_eq_true.mp hcond.2
      exact ⟨kv, hkv, bne_iff_ne.mp hne⟩
    · exact absurd hf (by simp)
  · exact absurd hf (by simp)

theorem parse_excel_rows_drop (headers : List String) (row : List (Option String))
    (rest : List (List (Option String)))
    (h : ∀ cell ∈ row, pyStrip (cell.getD "") = "") :
    parse_excel_rows headers (row :: rest) = parse_excel_rows headers rest := by
  unfold parse_excel_rows
  apply filterMap_cons_of_none
  dsimp only
  split
  · rw [if_neg]
    intro hcond
    obtain ⟨kv, hkv, hne⟩ := List.any_eq_true.mp hcond.2
    apply bne_iff_ne.mp hne
    unfold excelComponent at hkv
    obtain ⟨⟨hh, cell⟩, hz, rfl⟩ := List.mem_map.mp hkv
    have hc := h cell (List.of_mem_zip hz).2
    cases cell with
    | none => rfl
    | some v => simpa using hc
  · rfl

/-- Claim C10: both the CSV and the Excel data-row loops drop every row
whose cells are all empty after stripping (in particular every row of
empty cells, since `pyStrip "" = ""`), and consequently every raw-row
record returned by parsing has at least one non-empty field value. -/
theorem parse_drops_empty_rows :
    (∀ (headers : List String) rows comp, comp ∈ parse_csv_rows headers rows →
        ∃ kv ∈ comp, kv.2 ≠ "")
    ∧ (∀ (headers : List String) (row : List String) rest,
        (∀ cell ∈ row, pyStrip cell = "") →
        parse_csv_rows headers (row :: rest) = parse_csv_rows headers rest)
    ∧ (∀ (headers : List String) rows comp, comp ∈ parse_excel_rows headers rows →
        ∃ kv ∈ comp, kv.2 ≠ "")
    ∧ (∀ (headers : List String) (row : List (Option String)) rest,
        (∀ cell ∈ row, pyStrip (cell.getD "") = "") →
        parse_excel_rows headers (row :: rest) = parse_excel_rows headers rest) :=
  ⟨parse_csv_rows_keeps_nonempty, parse_csv_rows_drop,
   parse_excel_rows_keeps_nonempty, parse_excel_rows_drop⟩

/-- Witness for `parse_drops_empty_rows`: a whitespace-only row and an
all-empty row are both dropped from a concrete CSV table. -/
theorem parse_drops_empty_rows_witness :
    parse_csv_rows ["refdes"] ([" ", ""] :: [["R1"]]) = parse_csv_rows ["refdes"] [["R1"]] :=
  parse_drops_empty_rows.2.1 ["refdes"] [" ", ""] [["R1"]] (by decide)

/-! ## Post-search filter facts -/

/-- Claim C9: with `in_stock_only` the filter keeps exactly the candidates
with positive stock; with `active_only` it removes exactly the candidates
whose upper-cased lifecycle equals one of the excluded strings (ASCII
case-insensitive equality); and the in-stock filter applied to
`[{stock: 0}, {stock: 3}]` yields only the second candidate. -/
theorem apply_filters_spec :
    (∀ parts : List MouserPart,
        _apply_filters parts true false = parts.filter (fun p => 0 < p.stock.getD 0))
    ∧ (∀ parts : List MouserPart, ∀ p : MouserPart,
        p ∈ _apply_filters parts true false ↔ p ∈ parts ∧ 0 < p.stock.getD 0)
    ∧ (∀ parts : List MouserPart,
        _apply_filters parts false true =
          parts.filter (fun p => pyUpper (p.lifecycle.getD "") ∉ badLifecycles))
    ∧ (∀ parts : List MouserPart, ∀ p ∈ parts,
        (p ∈ _apply_filters parts false true ↔
          pyUpper (p.lifecycle.getD "") ∉ badLifecycles))
    ∧ _apply_filters [stockZeroCand, stockThreeCand] true false = [stockThreeCand] := by
  refine ⟨?_, ?_, ?_, ?_, by decide⟩
  · intro parts
    rfl
  · intro parts p
    show p ∈ List.filter _ parts ↔ _
    rw [List.mem_filter]
    simp
  · intro parts
    rfl
  · intro parts p hp
    show p ∈ List.filter _ parts ↔ _
    rw [List.mem_filter]
    simp [hp]

/-- Witness for `apply_filters_spec`: an in-stock candidate with a benign
lifecycle survives the active-only filter. -/
theorem apply_filters_spec_witness :
    stockThreeCand ∈ _apply_filters [stockThreeCand] false true :=
  (apply_filters_spec.2.2.2.1 [stockThreeCand] stockThreeCand (by decide)).mpr (by decide)

/-! ## Confirmation effects -/

/-- Claim C7: confirming a choice stores exactly that candidate under the
part key (overwriting in place, never adding a second entry for the key),
sets the checked flag, and leaves every other key's choice and flag, and
every other session field, unchanged. -/
theorem confirm_selection_frame (s : Session) (part_key : String)
    (mouser_part : MouserPart) :
    dget part_key (confirm_part_selection s part_key mouser_part).selected_parts
        = some mouser_part
    ∧ dget part_key (confirm_part_selection s part_key mouser_part).part_selected
        = some true
    ∧ (∀ k, k ≠ part_key →
        dget k (confirm_part_selection s part_key mouser_part).selected_parts
            = dget k s.selected_parts
        ∧ dget k (confirm_part_selection s part_key mouser_part).part_selected
            = dget k s.part_selected)
    ∧ (confirm_part_selection s part_key mouser_part).selected_parts.map Prod.fst
        = insertUnique (s.selected_parts.map Prod.fst) part_key
    ∧ (confirm_part_selection s part_key mouser_part).part_selected.map Prod.fst
        = insertUnique (s.part_selected.map Prod.fst) part_key
    ∧ (confirm_part_selection s part_key mouser_part).components = s.components
    ∧ (confirm_part_selection s part_key mouser_part).consolidated_parts
        = s.consolidated_parts
    ∧ (confirm_part_selection s part_key mouser_part).column_mapping = s.column_mapping
    ∧ (confirm_part_selection s part_key mouser_part).in_stock_only = s.in_stock_only
    ∧ (confirm_part_selection s part_key mouser_part).active_only = s.active_only
    ∧ (confirm_part_selection s part_key mouser_part).sort_preference = s.sort_preference
    ∧ (confirm_part_selection s part_key mouser_part).current_search_results
        = s.current_search_results
    ∧ (confirm_part_selection s part_key mouser_part).batch_part_keys = s.batch_part_keys
    ∧ (confirm_part_selection s part_key mouser_part).current_batch_index
        = s.current_batch_index
    ∧ (confirm_part_selection s part_key mouser_part).part_key_to_index
        = s.part_key_to_index :=
  ⟨dget_dset_self s.selected_parts part_key mouser_part,
   dget_dset_self s.part_selected part_key true,
   fun k hk =>
     ⟨dget_dset_ne s.selected_parts part_key k mouser_part hk,
      dget_dset_ne s.part_selected part_key k true hk⟩,
   dset_map_fst s.selected_parts part_key mouser_part,
   dset_map_fst s.part_selected part_key true,
   rfl, rfl, rfl, rfl, rfl, rfl, rfl, rfl, rfl, rfl⟩

/-- Witness for `confirm_selection_frame` at a concrete session. -/
theorem confirm_selection_frame_witness :
    dget "part_0" (confirm_part_selection cexSession "part_0" cexCandA).selected_parts
        = some cexCandA
    ∧ dget "part_1" (confirm_part_selection cexSession "part_0" cexCandA).part_selected
        = dget "part_1" cexSession.part_selected :=
  ⟨(confirm_selection_frame cexSession "part_0" cexCandA).1,
   ((confirm_selection_frame cexSession "part_0" cexCandA).2.2.1 "part_1"
      (by decide)).2⟩

/-! ## NA-sentinel export record -/

/-- Claim C1 (amended): after confirming the NA sentinel for a part, the
export contains a record for it with `MPN = "NA"`,
`Mouser Part Number = "NA"`, `Description = "N/A - No part selected"`,
`Manufacturer = "N/A"`, `Stock = 0`, and the remaining vendor-sourced
columns (Package, Price, Lifecycle, Product URL) blank. -/
theorem na_confirmation_export (s : Session) (part_key : String) :
    ∃ r ∈ get_export_data (confirm_part_selection s part_key naSelectedPart),
      r.MPN = "NA" ∧ r.MouserPartNumber = "NA" ∧
      r.Description = "N/A - No part selected" ∧ r.Manufacturer = "N/A" ∧
      r.Stock = 0 ∧ r.Package = "" ∧ r.Price = "" ∧ r.Lifecycle = "" ∧
      r.ProductURL = "" := by
  refine ⟨exportRow
      (_get_part_by_key (confirm_part_selection s part_key naSelectedPart) part_key)
      naSelectedPart, ?_, ?_⟩
  · unfold get_export_data
    dsimp only
    have hmem2 : (part_key, naSelectedPart) ∈ List.filter
        (fun kv =>
          (dget kv.1 (confirm_part_selection s part_key naSelectedPart).part_selected).getD
            false)
        (confirm_part_selection s part_key naSelectedPart).selected_parts := by
      apply List.mem_filter.mpr
      refine ⟨mem_dset_self s.selected_parts part_key naSelectedPart, ?_⟩
      show ((dget part_key (dset s.part_selected part_key true)).getD false) = true
      rw [dget_dset_self]
      rfl
    exact List.mem_map_of_mem _ hmem2
  · refine ⟨rfl, rfl, rfl, rfl, rfl, rfl, rfl, rfl, rfl⟩

/-- Counterexample to claim C1 as stated: the claim requires every
vendor-sourced column except Manufacturer to be blank, but the NA record
carries `Mouser Part Number = "NA"`, `Description = "N/A - No part
selected"` and `Stock = 0`. -/
theorem na_export_counterexample :
    ((get_export_data (confirm_part_selection cexSession "part_0" naSelectedPart)).map
        ExportRow.MouserPartNumber = ["NA"])
    ∧ ((get_export_data (confirm_part_selection cexSession "part_0" naSelectedPart)).map
        ExportRow.Description = ["N/A - No part selected"])
    ∧ ("NA" ≠ "") ∧ ("N/A - No part selected" ≠ "") := by
  decide

/-! ## Export order under a sequence of confirmations -/

theorem applyConfirms_selected (s : Session) (l : List (String × MouserPart)) :
    (applyConfirms s l).selected_parts =
      l.foldl (fun d kv => dset d kv.1 kv.2) s.selected_parts := by
  induction l generalizing s with
  | nil => rfl
  | cons kv l ih =>
      show (applyConfirms (confirm_part_selection s kv.1 kv.2) l).selected_parts = _
      rw [ih]
      rfl

theorem applyConfirms_part_selected (s : Session) (l : List (String × MouserPart)) :
    (applyConfirms s l).part_selected =
      l.foldl (fun d kv => dset d kv.1 true) s.part_selected := by
  induction l generalizing s with
  | nil => rfl
  | cons kv l ih =>
      show (applyConfirms (confirm_part_selection s kv.1 kv.2) l).part_selected = _
      rw [ih]
      rfl

theorem applyConfirms_parts (s : Session) (l : List (String × MouserPart)) :
    (applyConfirms s l).consolidated_parts = s.consolidated_parts
    ∧ (applyConfirms s l).part_key_to_index = s.part_key_to_index := by
  induction l generalizing s with
  | nil => exact ⟨rfl, rfl⟩
  | cons kv l ih =>
      show (applyConfirms (confirm_part_selection s kv.1 kv.2) l).consolidated_parts = _
        ∧ (applyConfirms (confirm_part_selection s kv.1 kv.2) l).part_key_to_index = _
      rw [(ih (confirm_part_selection s kv.1 kv.2)).1,
          (ih (confirm_part_selection s kv.1 kv.2)).2]
      exact ⟨rfl, rfl⟩

theorem foldl_dset_map_fst {α : Type} (l : List (String × α)) (d : List (String × α)) :
    (l.foldl (fun d kv => dset d kv.1 kv.2) d).map Prod.fst =
      (l.map Prod.fst).foldl insertUnique (d.map Prod.fst) := by
  induction l generalizing d with
  | nil => rfl
  | cons kv l ih =>
      rw [List.foldl_cons, ih, dset_map_fst, List.map_cons, List.foldl_cons]

theorem foldl_dset_true_get (l : List (String × MouserPart))
    (d : List (String × Bool)) (k : String) :
    dget k (l.foldl (fun d kv => dset d kv.1 true) d) =
      if k ∈ l.map Prod.fst then some true else dget k d := by
  induction l generalizing d with
  | nil => simp
  | cons kv l ih =>
      rw [List.foldl_cons, ih]
      by_cases hm : k ∈ l.map Prod.fst
      · rw [if_pos hm, if_pos (by simp [hm])]
      · rw [if_neg hm]
        by_cases hk : k = kv.1
        · subst hk
          rw [dget_dset_self, if_pos (by simp)]
        · rw [dget_dset_ne d kv.1 k true hk, if_neg (by simp [hm, hk])]

/-- Claim C2 (amended): starting from a session with no confirmed choices,
a sequence of confirmations yields one selection entry per distinct
confirmed part key, in first-confirmation order; every confirmed part is
checked; and the export list is exactly the selection list in that order
projected through `exportRow` — i.e. export order follows confirmation
order, not consolidated-part order. -/
theorem export_order_follows_confirmation (s : Session)
    (l : List (String × MouserPart)) (h : s.selected_parts = []) :
    ((applyConfirms s l).selected_parts.map Prod.fst = firstSeen (l.map Prod.fst))
    ∧ (∀ kv ∈ (applyConfirms s l).selected_parts,
        dget kv.1 (applyConfirms s l).part_selected = some true)
    ∧ get_export_data (applyConfirms s l) =
        (applyConfirms s l).selected_parts.map
          (fun kv => exportRow (_get_part_by_key (applyConfirms s l) kv.1) kv.2) := by
  have hsel := applyConfirms_selected s l
  have hkeys : (applyConfirms s l).selected_parts.map Prod.fst = firstSeen (l.map Prod.fst) := by
    rw [hsel, foldl_dset_map_fst, h]
    rfl
  have hchecked : ∀ kv ∈ (applyConfirms s l).selected_parts,
      dget kv.1 (applyConfirms s l).part_selected = some true := by
    intro kv hkv
    have hk : kv.1 ∈ (applyConfirms s l).selected_parts.map Prod.fst :=
      List.mem_map_of_mem Prod.fst hkv
    rw [hkeys, mem_firstSeen] at hk
    rw [applyConfirms_part_selected, foldl_dset_true_get, if_pos hk]
  refine ⟨hkeys, hchecked, ?_⟩
  unfold get_export_data
  dsimp only
  congr 1
  apply List.filter_eq_self.mpr
  intro kv hkv
  have := hchecked kv hkv
  rw [this]
  rfl

/-- Witness for `export_order_follows_confirmation`: confirming part 1
then part 0 leaves the selection keys in confirmation order. -/
theorem export_order_follows_confirmation_witness :
    (applyConfirms cexSession [("part_1", cexCandA), ("part_0", cexCandB)]).selected_parts.map
        Prod.fst
      = firstSeen ([("part_1", cexCandA), ("part_0", cexCandB)].map Prod.fst) :=
  (export_order_follows_confirmation cexSession
    [("part_1", cexCandA), ("part_0", cexCandB)] rfl).1

/-- Counterexample to claim C2 as stated: confirming part index 1 before
part index 0 produces export records in confirmation order
`["R2", "R1"]`, not ascending part-index order `["R1", "R2"]`. -/
theorem export_order_counterexample :
    ((get_export_data (applyConfirms cexSession
        [("part_1", cexCandA), ("part_0", cexCandB)])).map ExportRow.REFDES
      = ["R2", "R1"])
    ∧ (["R2", "R1"] ≠ (["R1", "R2"] : List String)) := by
  decide

/-! ## Ranking facts -/

theorem rank_price_eq (results : List MouserPart) (target_package : String) :
    rank_parts_with_preference results target_package "price" =
      sSort (keyLt priceSortKey) (results.map
        (fun part => setScore part (calculate_score appRankerWeights part target_package))) := by
  unfold rank_parts_with_preference
  rw [if_pos rfl]

theorem rank_stock_eq (results : List MouserPart) (target_package : String) :
    rank_parts_with_preference results target_package "stock" =
      sSort (keyLt stockSortKey) (results.map
        (fun part => setScore part (calculate_score stockModeWeights part target_package))) := by
  unfold rank_parts_with_preference
  rw [if_neg (by decide)]
  rfl

/-- Claim C5: price-mode ranking emits the candidates ascending by
extracted unit price (the parseable quantity-1 break, else the first
parseable break, else infinity), ties broken by descending stock; it is a
permutation of the score-attached input; and re-applying it to its own
output leaves the order unchanged. -/
theorem price_mode_ranking_sorted_idempotent (results : List MouserPart)
    (target_package : String) :
    ((rank_parts_with_preference results target_package "price").Pairwise
      (fun a b => _extract_price a < _extract_price b
        ∨ (_extract_price a = _extract_price b ∧ stockOf b ≤ stockOf a)))
    ∧ (rank_parts_with_preference results target_package "price").Perm
        (results.map (fun part =>
          setScore part (calculate_score appRankerWeights part target_package)))
    ∧ rank_parts_with_preference
        (rank_parts_with_preference results target_package "price")
        target_package "price"
      = rank_parts_with_preference results target_package "price" := by
  rw [rank_price_eq]
  refine ⟨?_, sSort_perm _ _, ?_⟩
  · have hpw := sSort_pairwise priceSortKey (results.map
      (fun part => setScore part (calculate_score appRankerWeights part target_package)))
    refine hpw.imp ?_
    intro a b hle
    unfold priceSortKey at hle
    rw [Prod.Lex.le_iff] at hle
    rcases hle with h1 | ⟨h1, h2⟩
    · exact Or.inl h1
    · exact Or.inr ⟨h1, by simpa using h2⟩
  · rw [rank_price_eq]
    have hself : ∀ y ∈ sSort (keyLt priceSortKey) (results.map
        (fun part => setScore part (calculate_score appRankerWeights part target_package))),
        setScore y (calculate_score appRankerWeights y target_package) = y := by
      intro y hy
      have hy2 := (sSort_perm _ _).mem_iff.mp hy
      obtain ⟨p0, _, rfl⟩ := List.mem_map.mp hy2
      rfl
    rw [map_eq_self_of_mem _ _ hself]
    exact sSort_of_pairwise priceSortKey _ (sSort_pairwise priceSortKey _)

theorem round2_add_twelve_le (a b : ℚ) (h : a + 12 ≤ b) :
    round2 a + 12 ≤ round2 b := by
  unfold round2
  have h1 : 100 * a + 1/2 + ((1200 : ℤ) : ℚ) ≤ 100 * b + 1/2 := by
    push_cast
    linarith
  have h2 : (⌊100 * a + 1/2⌋ : ℤ) + 1200 ≤ ⌊100 * b + 1/2⌋ := by
    calc (⌊100 * a + 1/2⌋ : ℤ) + 1200
        = ⌊100 * a + 1/2 + ((1200 : ℤ) : ℚ)⌋ := (Int.floor_add_int _ _).symm
      _ ≤ ⌊100 * b + 1/2⌋ := Int.floor_mono h1
  have h3 : ((⌊100 * a + 1/2⌋ : ℤ) : ℚ) + 1200 ≤ ((⌊100 * b + 1/2⌋ : ℤ) : ℚ) := by
    exact_mod_cast h2
  linarith

theorem score_stock_of_zero (p : MouserPart) (h : p.stock.getD 0 = 0) :
    score_stock p = 0 := by
  unfold score_stock
  rw [if_pos (by rw [h])]

theorem score_stock_of_pos (p : MouserPart) (h : 0 < p.stock.getD 0) :
    20 ≤ score_stock p := by
  dsimp only [score_stock]
  split_ifs with h1 h2 h3 h4 h5
  · exact absurd h1 (not_le.mpr h)
  · norm_num
  · norm_num
  · norm_num
  · norm_num
  · norm_num

theorem mem_rank_stock_score (results : List MouserPart) (target_package : String)
    (p : MouserPart)
    (hp : p ∈ rank_parts_with_preference results target_package "stock") :
    p.score = some (calculate_score stockModeWeights p target_package) := by
  rw [rank_stock_eq] at hp
  have hp2 := (sSort_perm _ _).mem_iff.mp hp
  obtain ⟨p0, _, rfl⟩ := List.mem_map.mp hp2
  rfl

/-- Claim C6: in stock mode (weights renormalized to 0.6 / 0.2 / 0.1 /
0.1, descending weighted score, ties by descending stock), whenever two
ranked candidates have equal price, lifecycle and package-match
sub-scores, a zero-stock candidate never appears ahead of a
positive-stock candidate. -/
theorem stock_mode_zero_stock_never_ahead (results : List MouserPart)
    (target_package : String) :
    (rank_parts_with_preference results target_package "stock").Pairwise
      (fun a b =>
        score_price a = score_price b →
        score_lifecycle a = score_lifecycle b →
        score_package_match a target_package = score_package_match b target_package →
        stockOf a = 0 → stockOf b ≤ 0) := by
  have hpw := sSort_pairwise stockSortKey (results.map
    (fun p => setScore p (calculate_score stockModeWeights p target_package)))
  rw [rank_stock_eq]
  have hmem : ∀ q ∈ sSort (keyLt stockSortKey) (results.map
      (fun p => setScore p (calculate_score stockModeWeights p target_package))),
      q.score = some (calculate_score stockModeWeights q target_package) := by
    intro q hq
    have hq2 := (sSort_perm _ _).mem_iff.mp hq
    obtain ⟨p0, _, rfl⟩ := List.mem_map.mp hq2
    rfl
  refine List.Pairwise.imp_of_mem ?_ hpw
  intro a b ha hb hle hsp hsl hsg hza
  by_contra hpos
  rw [not_le] at hpos
  have hsa : score_stock a = 0 := score_stock_of_zero a hza
  have hsb : 20 ≤ score_stock b := score_stock_of_pos b hpos
  have hwS : stockModeWeights.stock_weight = 3/5 := by
    norm_num [stockModeWeights]
  have hca : scoreOf a = calculate_score stockModeWeights a target_package := by
    unfold scoreOf
    rw [hmem a ha]
    rfl
  have hcb : scoreOf b = calculate_score stockModeWeights b target_package := by
    unfold scoreOf
    rw [hmem b hb]
    rfl
  have hgap : scoreOf a + 12 ≤ scoreOf b := by
    rw [hca, hcb]
    unfold calculate_score
    apply round2_add_twelve_le
    rw [hsp, hsl, hsg, hsa, hwS]
    nlinarith [score_stock_of_pos b hpos]
  unfold keyLt stockSortKey at hle
  rw [OrderDual.toDual_le_toDual, Prod.Lex.le_iff] at hle
  rcases hle with h1 | ⟨h1, h2⟩
  · simp only at h1
    linarith
  · simp only [Prod.mk.injEq] at h1
    have := h1
    linarith [hza, hpos, h2, this]

/-! ## Snapshot round-trip -/

theorem decStr_s (v : String) : decStr (Json.s v) = some v := rfl

theorem decInt_i (v : Int) : decInt (Json.i v) = some v := rfl

theorem decBool_b (v : Bool) : decBool (Json.b v) = some v := rfl

theorem decQ_q (v : ℚ) : decQ (Json.q v) = some v := rfl

theorem decArr_arr {α : Type} (f : Json → Option α) (l : List Json) :
    decArr f (Json.arr l) = l.mapM f := rfl

theorem decObjWith_obj {α : Type} (f : Json → Option α) (fl : List (String × Json)) :
    decObjWith f (Json.obj fl) =
      fl.mapM (fun kv => (f kv.2).map (fun v => (kv.1, v))) := rfl

theorem dget_nil {α : Type} (k : String) : dget k ([] : List (String × α)) = none := rfl

theorem mapM_map_eq_some {β : Type} (g : β → Json) (f : Json → Option β) (l : List β)
    (h : ∀ x ∈ l, f (g x) = some x) : (l.map g).mapM f = some l := by
  induction l with
  | nil => rfl
  | cons x l ih =>
      rw [List.map_cons, List.mapM_cons, h x (by simp),
        ih (fun y hy => h y (by simp [hy]))]
      rfl

theorem objMapM_eq_some {β : Type} (g : β → Json) (f : Json → Option β)
    (l : List (String × β)) (h : ∀ kv ∈ l, f (g kv.2) = some kv.2) :
    (l.map (fun kv => (kv.1, g kv.2))).mapM
      (fun kv => (f kv.2).map (fun v => (kv.1, v))) = some l := by
  induction l with
  | nil => rfl
  | cons kv l ih =>
      rw [List.map_cons, List.mapM_cons]
      have hh := h kv (by simp)
      dsimp only
      rw [hh, ih (fun y hy => h y (by simp [hy]))]
      rfl

theorem decOptField_skip {α β : Type} (k k' : String) (f : β → Json) (v : Option β)
    (rest : List (String × Json)) (g : Json → Option α) (h : k' ≠ k) :
    decOptField (optField k' f v ++ rest) k g = decOptField rest k g := by
  cases v <;> simp [optField, decOptField, dget, h]

theorem decOptField_round {α : Type} (k : String) (f : α → Json) (g : Json → Option α)
    (v : Option α) (rest : List (String × Json)) (hg : ∀ x, g (f x) = some x)
    (hnone : dget k rest = none) :
    decOptField (optField k f v ++ rest) k g = some v := by
  cases v with
  | none => simp [optField, decOptField, hnone]
  | some x => simp [optField, decOptField, dget, hg]

theorem dget_optField_ne {β : Type} (k k' : String) (f : β → Json) (v : Option β)
    (rest : List (String × Json)) (h : k' ≠ k) :
    dget k (optField k' f v ++ rest) = dget k rest := by
  cases v <;> simp [optField, dget, h]

theorem pb_roundtrip (pb : PriceBreak) : decPriceBreak (pbToJson pb) = some pb := by
  obtain ⟨q, pr, cu⟩ := pb
  cases q <;> cases pr <;> cases cu <;> rfl

theorem mapM_pb (l : List PriceBreak) :
    (l.map pbToJson).mapM decPriceBreak = some l :=
  mapM_map_eq_some pbToJson decPriceBreak l (fun x _ => pb_roundtrip x)

theorem decOptField_round_last {α : Type} (k : String) (f : α → Json) (g : Json → Option α)
    (v : Option α) (hg : ∀ x, g (f x) = some x) :
    decOptField (optField k f v) k g = some v := by
  cases v with
  | none => simp [optField, decOptField, dget]
  | some x => simp [optField, decOptField, dget, hg]

theorem dget_optField_last_ne {β : Type} (k k' : String) (f : β → Json) (v : Option β)
    (h : k' ≠ k) : dget k (optField k' f v) = none := by
  cases v <;> simp [optField, dget, h]
theorem decMouser_field_mpn (f1 : Option String) (f2 : Option String) (f3 : Option String) (f4 : Option String) (f5 : Option String) (f6 : Option String) (f7 : Option String) (f8 : Option String) (f9 : Option String) (f10 : Option Int) (f11 : Option (List PriceBreak)) (f12 : Option String) (f13 : Option String) (f14 : Option ℚ) :
    decOptField (optField "mpn" Json.s f1 ++ (optField "manufacturer" Json.s f2 ++ (optField "mouser_part_number" Json.s f3 ++ (optField "description" Json.s f4 ++ (optField "data_sheet_url" Json.s f5 ++ (optField "image_url" Json.s f6 ++ (optField "lifecycle" Json.s f7 ++ (optField "rohs_status" Json.s f8 ++ (optField "package" Json.s f9 ++ (optField "stock" Json.i f10 ++ (optField "price_breaks" (fun pbs => Json.arr (pbs.map pbToJson)) f11 ++ (optField "product_url" Json.s f12 ++ (optField "lead_time" Json.s f13 ++ (optField "score" Json.q f14)))))))))))))) "mpn" decStr = some f1 := by
  refine decOptField_round _ _ _ _ _ ?_ ?_
  · intro x
    rfl
  · rw [dget_optField_ne "mpn" "manufacturer" _ _ _ (by decide)]
    rw [dget_optField_ne "mpn" "mouser_part_number" _ _ _ (by decide)]
    rw [dget_optField_ne "mpn" "description" _ _ _ (by decide)]
    rw [dget_optField_ne "mpn" "data_sheet_url" _ _ _ (by decide)]
    rw [dget_optField_ne "mpn" "image_url" _ _ _ (by decide)]
    rw [dget_optField_ne "mpn" "lifecycle" _ _ _ (by decide)]
    rw [dget_optField_ne "mpn" "rohs_status" _ _ _ (by decide)]
    rw [dget_optField_ne "mpn" "package" _ _ _ (by decide)]
    rw [dget_optField_ne "mpn" "stock" _ _ _ (by decide)]
    rw [dget_optField_ne "mpn" "price_breaks" _ _ _ (by decide)]
    rw [dget_optField_ne "mpn" "product_url" _ _ _ (by decide)]
    rw [dget_optField_ne "mpn" "lead_time" _ _ _ (by decide)]
    exact dget_optField_last_ne "mpn" "score" _ _ (by decide)

theorem decMouser_field_manufacturer (f1 : Option String) (f2 : Option String) (f3 : Option String) (f4 : Option String) (f5 : Option String) (f6 : Option String) (f7 : Option String) (f8 : Option String) (f9 : Option String) (f10 : Option Int) (f11 : Option (List PriceBreak)) (f12 : Option String) (f13 : Option String) (f14 : Option ℚ) :
    decOptField (optField "mpn" Json.s f1 ++ (optField "manufacturer" Json.s f2 ++ (optField "mouser_part_number" Json.s f3 ++ (optField "description" Json.s f4 ++ (optField "data_sheet_url" Json.s f5 ++ (optField "image_url" Json.s f6 ++ (optField "lifecycle" Json.s f7 ++ (optField "rohs_status" Json.s f8 ++ (optField "package" Json.s f9 ++ (optField "stock" Json.i f10 ++ (optField "price_breaks" (fun pbs => Json.arr (pbs.map pbToJson)) f11 ++ (optField "product_url" Json.s f12 ++ (optField "lead_time" Json.s f13 ++ (optField "score" Json.q f14)))))))))))))) "manufacturer" decStr = some f2 := by
  rw [decOptField_skip "manufacturer" "mpn" _ _ _ _ (by decide)]
  refine decOptField_round _ _ _ _ _ ?_ ?_
  · intro x
    rfl
  · rw [dget_optField_ne "manufacturer" "mouser_part_number" _ _ _ (by decide)]
    rw [dget_optField_ne "manufacturer" "description" _ _ _ (by decide)]
    rw [dget_optField_ne "manufacturer" "data_sheet_url" _ _ _ (by decide)]
    rw [dget_optField_ne "manufacturer" "image_url" _ _ _ (by decide)]
    rw [dget_optField_ne "manufacturer" "lifecycle" _ _ _ (by decide)]
    rw [dget_optField_ne "manufacturer" "rohs_status" _ _ _ (by decide)]
    rw [dget_optField_ne "manufacturer" "package" _ _ _ (by decide)]
    rw [dget_optField_ne "manufacturer" "stock" _ _ _ (by decide)]
    rw [dget_optField_ne "manufacturer" "price_breaks" _ _ _ (by decide)]
    rw [dget_optField_ne "manufacturer" "product_url" _ _ _ (by decide)]
    rw [dget_optField_ne "manufacturer" "lead_time" _ _ _ (by decide)]
    exact dget_optField_last_ne "manufacturer" "score" _ _ (by decide)

theorem decMouser_field_mouser_part_number (f1 : Option String) (f2 : Option String) (f3 : Option String) (f4 : Option String) (f5 : Option String) (f6 : Option String) (f7 : Option String) (f8 : Option String) (f9 : Option String) (f10 : Option Int) (f11 : Option (List PriceBreak)) (f12 : Option String) (f13 : Option String) (f14 : Option ℚ) :
    decOptField (optField "mpn" Json.s f1 ++ (optField "manufacturer" Json.s f2 ++ (optField "mouser_part_number" Json.s f3 ++ (optField "description" Json.s f4 ++ (optField "data_sheet_url" Json.s f5 ++ (optField "image_url" Json.s f6 ++ (optField "lifecycle" Json.s f7 ++ (optField "rohs_status" Json.s f8 ++ (optField "package" Json.s f9 ++ (optField "stock" Json.i f10 ++ (optField "price_breaks" (fun pbs => Json.arr (pbs.map pbToJson)) f11 ++ (optField "product_url" Json.s f12 ++ (optField "lead_time" Json.s f13 ++ (optField "score" Json.q f14)))))))))))))) "mouser_part_number" decStr = some f3 := by
  rw [decOptField_skip "mouser_part_number" "mpn" _ _ _ _ (by decide)]
  rw [decOptField_skip "mouser_part_number" "manufacturer" _ _ _ _ (by decide)]
  refine decOptField_round _ _ _ _ _ ?_ ?_
  · intro x
    rfl
  · rw [dget_optField_ne "mouser_part_number" "description" _ _ _ (by decide)]
    rw [dget_optField_ne "mouser_part_number" "data_sheet_url" _ _ _ (by decide)]
    rw [dget_optField_ne "mouser_part_number" "image_url" _ _ _ (by decide)]
    rw [dget_optField_ne "mouser_part_number" "lifecycle" _ _ _ (by decide)]
    rw [dget_optField_ne "mouser_part_number" "rohs_status" _ _ _ (by decide)]
    rw [dget_optField_ne "mouser_part_number" "package" _ _ _ (by decide)]
    rw [dget_optField_ne "mouser_part_number" "stock" _ _ _ (by decide)]
    rw [dget_optField_ne "mouser_part_number" "price_breaks" _ _ _ (by decide)]
    rw [dget_optField_ne "mouser_part_number" "product_url" _ _ _ (by decide)]
    rw [dget_optField_ne "mouser_part_number" "lead_time" _ _ _ (by decide)]
    exact dget_optField_last_ne "mouser_part_number" "score" _ _ (by decide)

theorem decMouser_field_description (f1 : Option String) (f2 : Option String) (f3 : Option String) (f4 : Option String) (f5 : Option String) (f6 : Option String) (f7 : Option String) (f8 : Option String) (f9 : Option String) (f10 : Option Int) (f11 : Option (List PriceBreak)) (f12 : Option String) (f13 : Option String) (f14 : Option ℚ) :
    decOptField (optField "mpn" Json.s f1 ++ (optField "manufacturer" Json.s f2 ++ (optField "mouser_part_number" Json.s f3 ++ (optField "description" Json.s f4 ++ (optField "data_sheet_url" Json.s f5 ++ (optField "image_url" Json.s f6 ++ (optField "lifecycle" Json.s f7 ++ (optField "rohs_status" Json.s f8 ++ (optField "package" Json.s f9 ++ (optField "stock" Json.i f10 ++ (optField "price_breaks" (fun pbs => Json.arr (pbs.map pbToJson)) f11 ++ (optField "product_url" Json.s f12 ++ (optField "lead_time" Json.s f13 ++ (optField "score" Json.q f14)))))))))))))) "description" decStr = some f4 := by
  rw [decOptField_skip "description" "mpn" _ _ _ _ (by decide)]
  rw [decOptField_skip "description" "manufacturer" _ _ _ _ (by decide)]
  rw [decOptField_skip "description" "mouser_part_number" _ _ _ _ (by decide)]
  refine decOptField_round _ _ _ _ _ ?_ ?_
  · intro x
    rfl
  · rw [dget_optField_ne "description" "data_sheet_url" _ _ _ (by decide)]
    rw [dget_optField_ne "description" "image_url" _ _ _ (by decide)]
    rw [dget_optField_ne "description" "lifecycle" _ _ _ (by decide)]
    rw [dget_optField_ne "description" "rohs_status" _ _ _ (by decide)]
    rw [dget_optField_ne "description" "package" _ _ _ (by decide)]
    rw [dget_optField_ne "description" "stock" _ _ _ (by decide)]
    rw [dget_optField_ne "description" "price_breaks" _ _ _ (by decide)]
    rw [dget_optField_ne "description" "product_url" _ _ _ (by decide)]
    rw [dget_optField_ne "description" "lead_time" _ _ _ (by decide)]
    exact dget_optField_last_ne "description" "score" _ _ (by decide)

theorem decMouser_field_data_sheet_url (f1 : Option String) (f2 : Option String) (f3 : Option String) (f4 : Option String) (f5 : Option String) (f6 : Option String) (f7 : Option String) (f8 : Option String) (f9 : Option String) (f10 : Option Int) (f11 : Option (List PriceBreak)) (f12 : Option String) (f13 : Option String) (f14 : Option ℚ) :
    decOptField (optField "mpn" Json.s f1 ++ (optField "manufacturer" Json.s f2 ++ (optField "mouser_part_number" Json.s f3 ++ (optField "description" Json.s f4 ++ (optField "data_sheet_url" Json.s f5 ++ (optField "image_url" Json.s f6 ++ (optField "lifecycle" Json.s f7 ++ (optField "rohs_status" Json.s f8 ++ (optField "package" Json.s f9 ++ (optField "stock" Json.i f10 ++ (optField "price_breaks" (fun pbs => Json.arr (pbs.map pbToJson)) f11 ++ (optField "product_url" Json.s f12 ++ (optField "lead_time" Json.s f13 ++ (optField "score" Json.q f14)))))))))))))) "data_sheet_url" decStr = some f5 := by
  rw [decOptField_skip "data_sheet_url" "mpn" _ _ _ _ (by decide)]
  rw [decOptField_skip "data_sheet_url" "manufacturer" _ _ _ _ (by decide)]
  rw [decOptField_skip "data_sheet_url" "mouser_part_number" _ _ _ _ (by decide)]
  rw [decOptField_skip "data_sheet_url" "description" _ _ _ _ (by decide)]
  refine decOptField_round _ _ _ _ _ ?_ ?_
  · intro x
    rfl
  · rw [dget_optField_ne "data_sheet_url" "image_url" _ _ _ (by decide)]
    rw [dget_optField_ne "data_sheet_url" "lifecycle" _ _ _ (by decide)]
    rw [dget_optField_ne "data_sheet_url" "rohs_status" _ _ _ (by decide)]
    rw [dget_optField_ne "data_sheet_url" "package" _ _ _ (by decide)]
    rw [dget_optField_ne "data_sheet_url" "stock" _ _ _ (by decide)]
    rw [dget_optField_ne "data_sheet_url" "price_breaks" _ _ _ (by decide)]
    rw [dget_optField_ne "data_sheet_url" "product_url" _ _ _ (by decide)]
    rw [dget_optField_ne "data_sheet_url" "lead_time" _ _ _ (by decide)]
    exact dget_optField_last_ne "data_sheet_url" "score" _ _ (by decide)

theorem decMouser_field_image_url (f1 : Option String) (f2 : Option String) (f3 : Option String) (f4 : Option String) (f5 : Option String) (f6 : Option String) (f7 : Option String) (f8 : Option String) (f9 : Option String) (f10 : Option Int) (f11 : Option (List PriceBreak)) (f12 : Option String) (f13 : Option String) (f14 : Option ℚ) :
    decOptField (optField "mpn" Json.s f1 ++ (optField "manufacturer" Json.s f2 ++ (optField "mouser_part_number" Json.s f3 ++ (optField "description" Json.s f4 ++ (optField "data_sheet_url" Json.s f5 ++ (optField "image_url" Json.s f6 ++ (optField "lifecycle" Json.s f7 ++ (optField "rohs_status" Json.s f8 ++ (optField "package" Json.s f9 ++ (optField "stock" Json.i f10 ++ (optField "price_breaks" (fun pbs => Json.arr (pbs.map pbToJson)) f11 ++ (optField "product_url" Json.s f12 ++ (optField "lead_time" Json.s f13 ++ (optField "score" Json.q f14)))))))))))))) "image_url" decStr = some f6 := by
  rw [decOptField_skip "image_url" "mpn" _ _ _ _ (by decide)]
  rw [decOptField_skip "image_url" "manufacturer" _ _ _ _ (by decide)]
  rw [decOptField_skip "image_url" "mouser_part_number" _ _ _ _ (by decide)]
  rw [decOptField_skip "image_url" "description" _ _ _ _ (by decide)]
  rw [decOptField_skip "image_url" "data_sheet_url" _ _ _ _ (by decide)]
  refine decOptField_round _ _ _ _ _ ?_ ?_
  · intro x
    rfl
  · rw [dget_optField_ne "image_url" "lifecycle" _ _ _ (by decide)]
    rw [dget_optField_ne "image_url" "rohs_status" _ _ _ (by decide)]
    rw [dget_optField_ne "image_url" "package" _ _ _ (by decide)]
    rw [dget_optField_ne "image_url" "stock" _ _ _ (by decide)]
    rw [dget_optField_ne "image_url" "price_breaks" _ _ _ (by decide)]
    rw [dget_optField_ne "image_url" "product_url" _ _ _ (by decide)]
    rw [dget_optField_ne "image_url" "lead_time" _ _ _ (by decide)]
    exact dget_optField_last_ne "image_url" "score" _ _ (by decide)

theorem decMouser_field_lifecycle (f1 : Option String) (f2 : Option String) (f3 : Option String) (f4 : Option String) (f5 : Option String) (f6 : Option String) (f7 : Option String) (f8 : Option String) (f9 : Option String) (f10 : Option Int) (f11 : Option (List PriceBreak)) (f12 : Option String) (f13 : Option String) (f14 : Option ℚ) :
    decOptField (optField "mpn" Json.s f1 ++ (optField "manufacturer" Json.s f2 ++ (optField "mouser_part_number" Json.s f3 ++ (optField "description" Json.s f4 ++ (optField "data_sheet_url" Json.s f5 ++ (optField "image_url" Json.s f6 ++ (optField "lifecycle" Json.s f7 ++ (optField "rohs_status" Json.s f8 ++ (optField "package" Json.s f9 ++ (optField "stock" Json.i f10 ++ (optField "price_breaks" (fun pbs => Json.arr (pbs.map pbToJson)) f11 ++ (optField "product_url" Json.s f12 ++ (optField "lead_time" Json.s f13 ++ (optField "score" Json.q f14)))))))))))))) "lifecycle" decStr = some f7 := by
  rw [decOptField_skip "lifecycle" "mpn" _ _ _ _ (by decide)]
  rw [decOptField_skip "lifecycle" "manufacturer" _ _ _ _ (by decide)]
  rw [decOptField_skip "lifecycle" "mouser_part_number" _ _ _ _ (by decide)]
  rw [decOptField_skip "lifecycle" "description" _ _ _ _ (by decide)]
  rw [decOptField_skip "lifecycle" "data_sheet_url" _ _ _ _ (by decide)]
  rw [decOptField_skip "lifecycle" "image_url" _ _ _ _ (by decide)]
  refine decOptField_round _ _ _ _ _ ?_ ?_
  · intro x
    rfl
  · rw [dget_optField_ne "lifecycle" "rohs_status" _ _ _ (by decide)]
    rw [dget_optField_ne "lifecycle" "package" _ _ _ (by decide)]
    rw [dget_optField_ne "lifecycle" "stock" _ _ _ (by decide)]
    rw [dget_optField_ne "lifecycle" "price_breaks" _ _ _ (by decide)]
    rw [dget_optField_ne "lifecycle" "product_url" _ _ _ (by decide)]
    rw [dget_optField_ne "lifecycle" "lead_time" _ _ _ (by decide)]
    exact dget_optField_last_ne "lifecycle" "score" _ _ (by decide)

theorem decMouser_field_rohs_status (f1 : Option String) (f2 : Option String) (f3 : Option String) (f4 : Option String) (f5 : Option String) (f6 : Option String) (f7 : Option String) (f8 : Option String) (f9 : Option String) (f10 : Option Int) (f11 : Option (List PriceBreak)) (f12 : Option String) (f13 : Option String) (f14 : Option ℚ) :
    decOptField (optField "mpn" Json.s f1 ++ (optField "manufacturer" Json.s f2 ++ (optField "mouser_part_number" Json.s f3 ++ (optField "description" Json.s f4 ++ (optField "data_sheet_url" Json.s f5 ++ (optField "image_url" Json.s f6 ++ (optField "lifecycle" Json.s f7 ++ (optField "rohs_status" Json.s f8 ++ (optField "package" Json.s f9 ++ (optField "stock" Json.i f10 ++ (optField "price_breaks" (fun pbs => Json.arr (pbs.map pbToJson)) f11 ++ (optField "product_url" Json.s f12 ++ (optField "lead_time" Json.s f13 ++ (optField "score" Json.q f14)))))))))))))) "rohs_status" decStr = some f8 := by
  rw [decOptField_skip "rohs_status" "mpn" _ _ _ _ (by decide)]
  rw [decOptField_skip "rohs_status" "manufacturer" _ _ _ _ (by decide)]
  rw [decOptField_skip "rohs_status" "mouser_part_number" _ _ _ _ (by decide)]
  rw [decOptField_skip "rohs_status" "description" _ _ _ _ (by decide)]
  rw [decOptField_skip "rohs_status" "data_sheet_url" _ _ _ _ (by decide)]
  rw [decOptField_skip "rohs_status" "image_url" _ _ _ _ (by decide)]
  rw [decOptField_skip "rohs_status" "lifecycle" _ _ _ _ (by decide)]
  refine decOptField_round _ _ _ _ _ ?_ ?_
  · intro x
    rfl
  · rw [dget_optField_ne "rohs_status" "package" _ _ _ (by decide)]
    rw [dget_optField_ne "rohs_status" "stock" _ _ _ (by decide)]
    rw [dget_optField_ne "rohs_status" "price_breaks" _ _ _ (by decide)]
    rw [dget_optField_ne "rohs_status" "product_url" _ _ _ (by decide)]
    rw [dget_optField_ne "rohs_status" "lead_time" _ _ _ (by decide)]
    exact dget_optField_last_ne "rohs_status" "score" _ _ (by decide)

theorem decMouser_field_package (f1 : Option String) (f2 : Option String) (f3 : Option String) (f4 : Option String) (f5 : Option String) (f6 : Option String) (f7 : Option String) (f8 : Option String) (f9 : Option String) (f10 : Option Int) (f11 : Option (List PriceBreak)) (f12 : Option String) (f13 : Option String) (f14 : Option ℚ) :
    decOptField (optField "mpn" Json.s f1 ++ (optField "manufacturer" Json.s f2 ++ (optField "mouser_part_number" Json.s f3 ++ (optField "description" Json.s f4 ++ (optField "data_sheet_url" Json.s f5 ++ (optField "image_url" Json.s f6 ++ (optField "lifecycle" Json.s f7 ++ (optField "rohs_status" Json.s f8 ++ (optField "package" Json.s f9 ++ (optField "stock" Json.i f10 ++ (optField "price_breaks" (fun pbs => Json.arr (pbs.map pbToJson)) f11 ++ (optField "product_url" Json.s f12 ++ (optField "lead_time" Json.s f13 ++ (optField "score" Json.q f14)))))))))))))) "package" decStr = some f9 := by
  rw [decOptField_skip "package" "mpn" _ _ _ _ (by decide)]
  rw [decOptField_skip "package" "manufacturer" _ _ _ _ (by decide)]
  rw [decOptField_skip "package" "mouser_part_number" _ _ _ _ (by decide)]
  rw [decOptField_skip "package" "description" _ _ _ _ (by decide)]
  rw [decOptField_skip "package" "data_sheet_url" _ _ _ _ (by decide)]
  rw [decOptField_skip "package" "image_url" _ _ _ _ (by decide)]
  rw [decOptField_skip "package" "lifecycle" _ _ _ _ (by decide)]
  rw [decOptField_skip "package" "rohs_status" _ _ _ _ (by decide)]
  refine decOptField_round _ _ _ _ _ ?_ ?_
  · intro x
    rfl
  · rw [dget_optField_ne "package" "stock" _ _ _ (by decide)]
    rw [dget_optField_ne "package" "price_breaks" _ _ _ (by decide)]
    rw [dget_optField_ne "package" "product_url" _ _ _ (by decide)]
    rw [dget_optField_ne "package" "lead_time" _ _ _ (by decide)]
    exact dget_optField_last_ne "package" "score" _ _ (by decide)

theorem decMouser_field_stock (f1 : Option String) (f2 : Option String) (f3 : Option String) (f4 : Option String) (f5 : Option String) (f6 : Option String) (f7 : Option String) (f8 : Option String) (f9 : Option String) (f10 : Option Int) (f11 : Option (List PriceBreak)) (f12 : Option String) (f13 : Option String) (f14 : Option ℚ) :
    decOptField (optField "mpn" Json.s f1 ++ (optField "manufacturer" Json.s f2 ++ (optField "mouser_part_number" Json.s f3 ++ (optField "description" Json.s f4 ++ (optField "data_sheet_url" Json.s f5 ++ (optField "image_url" Json.s f6 ++ (optField "lifecycle" Json.s f7 ++ (optField "rohs_status" Json.s f8 ++ (optField "package" Json.s f9 ++ (optField "stock" Json.i f10 ++ (optField "price_breaks" (fun pbs => Json.arr (pbs.map pbToJson)) f11 ++ (optField "product_url" Json.s f12 ++ (optField "lead_time" Json.s f13 ++ (optField "score" Json.q f14)))))))))))))) "stock" decInt = some f10 := by
  rw [decOptField_skip "stock" "mpn" _ _ _ _ (by decide)]
  rw [decOptField_skip "stock" "manufacturer" _ _ _ _ (by decide)]
  rw [decOptField_skip "stock" "mouser_part_number" _ _ _ _ (by decide)]
  rw [decOptField_skip "stock" "description" _ _ _ _ (by decide)]
  rw [decOptField_skip "stock" "data_sheet_url" _ _ _ _ (by decide)]
  rw [decOptField_skip "stock" "image_url" _ _ _ _ (by decide)]
  rw [decOptField_skip "stock" "lifecycle" _ _ _ _ (by decide)]
  rw [decOptField_skip "stock" "rohs_status" _ _ _ _ (by decide)]
  rw [decOptField_skip "stock" "package" _ _ _ _ (by decide)]
  refine decOptField_round _ _ _ _ _ ?_ ?_
  · intro x
    rfl
  · rw [dget_optField_ne "stock" "price_breaks" _ _ _ (by decide)]
    rw [dget_optField_ne "stock" "product_url" _ _ _ (by decide)]
    rw [dget_optField_ne "stock" "lead_time" _ _ _ (by decide)]
    exact dget_optField_last_ne "stock" "score" _ _ (by decide)

theorem decMouser_field_price_breaks (f1 : Option String) (f2 : Option String) (f3 : Option String) (f4 : Option String) (f5 : Option String) (f6 : Option String) (f7 : Option String) (f8 : Option String) (f9 : Option String) (f10 : Option Int) (f11 : Option (List PriceBreak)) (f12 : Option String) (f13 : Option String) (f14 : Option ℚ) :
    decOptField (optField "mpn" Json.s f1 ++ (optField "manufacturer" Json.s f2 ++ (optField "mouser_part_number" Json.s f3 ++ (optField "description" Json.s f4 ++ (optField "data_sheet_url" Json.s f5 ++ (optField "image_url" Json.s f6 ++ (optField "lifecycle" Json.s f7 ++ (optField "rohs_status" Json.s f8 ++ (optField "package" Json.s f9 ++ (optField "stock" Json.i f10 ++ (optField "price_breaks" (fun pbs => Json.arr (pbs.map pbToJson)) f11 ++ (optField "product_url" Json.s f12 ++ (optField "lead_time" Json.s f13 ++ (optField "score" Json.q f14)))))))))))))) "price_breaks" (decArr decPriceBreak) = some f11 := by
  rw [decOptField_skip "price_breaks" "mpn" _ _ _ _ (by decide)]
  rw [decOptField_skip "price_breaks" "manufacturer" _ _ _ _ (by decide)]
  rw [decOptField_skip "price_breaks" "mouser_part_number" _ _ _ _ (by decide)]
  rw [decOptField_skip "price_breaks" "description" _ _ _ _ (by decide)]
  rw [decOptField_skip "price_breaks" "data_sheet_url" _ _ _ _ (by decide)]
  rw [decOptField_skip "price_breaks" "image_url" _ _ _ _ (by decide)]
  rw [decOptField_skip "price_breaks" "lifecycle" _ _ _ _ (by decide)]
  rw [decOptField_skip "price_breaks" "rohs_status" _ _ _ _ (by decide)]
  rw [decOptField_skip "price_breaks" "package" _ _ _ _ (by decide)]
  rw [decOptField_skip "price_breaks" "stock" _ _ _ _ (by decide)]
  refine decOptField_round _ _ _ _ _ ?_ ?_
  · intro x
    exact mapM_pb x
  · rw [dget_optField_ne "price_breaks" "product_url" _ _ _ (by decide)]
    rw [dget_optField_ne "price_breaks" "lead_time" _ _ _ (by decide)]
    exact dget_optField_last_ne "price_breaks" "score" _ _ (by decide)

theorem decMouser_field_product_url (f1 : Option String) (f2 : Option String) (f3 : Option String) (f4 : Option String) (f5 : Option String) (f6 : Option String) (f7 : Option String) (f8 : Option String) (f9 : Option String) (f10 : Option Int) (f11 : Option (List PriceBreak)) (f12 : Option String) (f13 : Option String) (f14 : Option ℚ) :
    decOptField (optField "mpn" Json.s f1 ++ (optField "manufacturer" Json.s f2 ++ (optField "mouser_part_number" Json.s f3 ++ (optField "description" Json.s f4 ++ (optField "data_sheet_url" Json.s f5 ++ (optField "image_url" Json.s f6 ++ (optField "lifecycle" Json.s f7 ++ (optField "rohs_status" Json.s f8 ++ (optField "package" Json.s f9 ++ (optField "stock" Json.i f10 ++ (optField "price_breaks" (fun pbs => Json.arr (pbs.map pbToJson)) f11 ++ (optField "product_url" Json.s f12 ++ (optField "lead_time" Json.s f13 ++ (optField "score" Json.q f14)))))))))))))) "product_url" decStr = some f12 := by
  rw [decOptField_skip "product_url" "mpn" _ _ _ _ (by decide)]
  rw [decOptField_skip "product_url" "manufacturer" _ _ _ _ (by decide)]
  rw [decOptField_skip "product_url" "mouser_part_number" _ _ _ _ (by decide)]
  rw [decOptField_skip "product_url" "description" _ _ _ _ (by decide)]
  rw [decOptField_skip "product_url" "data_sheet_url" _ _ _ _ (by decide)]
  rw [decOptField_skip "product_url" "image_url" _ _ _ _ (by decide)]
  rw [decOptField_skip "product_url" "lifecycle" _ _ _ _ (by decide)]
  rw [decOptField_skip "product_url" "rohs_status" _ _ _ _ (by decide)]
  rw [decOptField_skip "product_url" "package" _ _ _ _ (by decide)]
  rw [decOptField_skip "product_url" "stock" _ _ _ _ (by decide)]
  rw [decOptField_skip "product_url" "price_breaks" _ _ _ _ (by decide)]
  refine decOptField_round _ _ _ _ _ ?_ ?_
  · intro x
    rfl
  · rw [dget_optField_ne "product_url" "lead_time" _ _ _ (by decide)]
    exact dget_optField_last_ne "product_url" "score" _ _ (by decide)

theorem decMouser_field_lead_time (f1 : Option String) (f2 : Option String) (f3 : Option String) (f4 : Option String) (f5 : Option String) (f6 : Option String) (f7 : Option String) (f8 : Option String) (f9 : Option String) (f10 : Option Int) (f11 : Option (List PriceBreak)) (f12 : Option String) (f13 : Option String) (f14 : Option ℚ) :
    decOptField (optField "mpn" Json.s f1 ++ (optField "manufacturer" Json.s f2 ++ (optField "mouser_part_number" Json.s f3 ++ (optField "description" Json.s f4 ++ (optField "data_sheet_url" Json.s f5 ++ (optField "image_url" Json.s f6 ++ (optField "lifecycle" Json.s f7 ++ (optField "rohs_status" Json.s f8 ++ (optField "package" Json.s f9 ++ (optField "stock" Json.i f10 ++ (optField "price_breaks" (fun pbs => Json.arr (pbs.map pbToJson)) f11 ++ (optField "product_url" Json.s f12 ++ (optField "lead_time" Json.s f13 ++ (optField "score" Json.q f14)))))))))))))) "lead_time" decStr = some f13 := by
  rw [decOptField_skip "lead_time" "mpn" _ _ _ _ (by decide)]
  rw [decOptField_skip "lead_time" "manufacturer" _ _ _ _ (by decide)]
  rw [decOptField_skip "lead_time" "mouser_part_number" _ _ _ _ (by decide)]
  rw [decOptField_skip "lead_time" "description" _ _ _ _ (by decide)]
  rw [decOptField_skip "lead_time" "data_sheet_url" _ _ _ _ (by decide)]
  rw [decOptField_skip "lead_time" "image_url" _ _ _ _ (by decide)]
  rw [decOptField_skip "lead_time" "lifecycle" _ _ _ _ (by decide)]
  rw [decOptField_skip "lead_time" "rohs_status" _ _ _ _ (by decide)]
  rw [decOptField_skip "lead_time" "package" _ _ _ _ (by decide)]
  rw [decOptField_skip "lead_time" "stock" _ _ _ _ (by decide)]
  rw [decOptField_skip "lead_time" "price_breaks" _ _ _ _ (by decide)]
  rw [decOptField_skip "lead_time" "product_url" _ _ _ _ (by decide)]
  refine decOptField_round _ _ _ _ _ ?_ ?_
  · intro x
    rfl
  · exact dget_optField_last_ne "lead_time" "score" _ _ (by decide)

theorem decMouser_field_score (f1 : Option String) (f2 : Option String) (f3 : Option String) (f4 : Option String) (f5 : Option String) (f6 : Option String) (f7 : Option String) (f8 : Option String) (f9 : Option String) (f10 : Option Int) (f11 : Option (List PriceBreak)) (f12 : Option String) (f13 : Option String) (f14 : Option ℚ) :
    decOptField (optField "mpn" Json.s f1 ++ (optField "manufacturer" Json.s f2 ++ (optField "mouser_part_number" Json.s f3 ++ (optField "description" Json.s f4 ++ (optField "data_sheet_url" Json.s f5 ++ (optField "image_url" Json.s f6 ++ (optField "lifecycle" Json.s f7 ++ (optField "rohs_status" Json.s f8 ++ (optField "package" Json.s f9 ++ (optField "stock" Json.i f10 ++ (optField "price_breaks" (fun pbs => Json.arr (pbs.map pbToJson)) f11 ++ (optField "product_url" Json.s f12 ++ (optField "lead_time" Json.s f13 ++ (optField "score" Json.q f14)))))))))))))) "score" decQ = some f14 := by
  rw [decOptField_skip "score" "mpn" _ _ _ _ (by decide)]
  rw [decOptField_skip "score" "manufacturer" _ _ _ _ (by decide)]
  rw [decOptField_skip "score" "mouser_part_number" _ _ _ _ (by decide)]
  rw [decOptField_skip "score" "description" _ _ _ _ (by decide)]
  rw [decOptField_skip "score" "data_sheet_url" _ _ _ _ (by decide)]
  rw [decOptField_skip "score" "image_url" _ _ _ _ (by decide)]
  rw [decOptField_skip "score" "lifecycle" _ _ _ _ (by decide)]
  rw [decOptField_skip "score" "rohs_status" _ _ _ _ (by decide)]
  rw [decOptField_skip "score" "package" _ _ _ _ (by decide)]
  rw [decOptField_skip "score" "stock" _ _ _ _ (by decide)]
  rw [decOptField_skip "score" "price_breaks" _ _ _ _ (by decide)]
  rw [decOptField_skip "score" "product_url" _ _ _ _ (by decide)]
  rw [decOptField_skip "score" "lead_time" _ _ _ _ (by decide)]
  refine decOptField_round_last _ _ _ _ ?_
  intro x
  rfl

theorem mouser_roundtrip (p : MouserPart) : decMouser (mouserToJson p) = some p := by
  obtain ⟨f1, f2, f3, f4, f5, f6, f7, f8, f9, f10, f11, f12, f13, f14⟩ := p
  simp only [mouserToJson, decMouser, List.append_assoc]
  simp only [decMouser_field_mpn, decMouser_field_manufacturer,
    decMouser_field_mouser_part_number, decMouser_field_description,
    decMouser_field_data_sheet_url, decMouser_field_image_url,
    decMouser_field_lifecycle, decMouser_field_rohs_status,
    decMouser_field_package, decMouser_field_stock, decMouser_field_price_breaks,
    decMouser_field_product_url, decMouser_field_lead_time, decMouser_field_score,
    Option.bind_eq_bind, Option.some_bind]
  rfl

theorem dget_extra_skip (k : String) (ex : List (String × String))
    (rest : List (String × Json)) (h : ∀ kv ∈ ex, kv.1 ≠ k) :
    dget k (ex.map (fun kv => (kv.1, Json.s kv.2)) ++ rest) = dget k rest := by
  induction ex with
  | nil => rfl
  | cons kv l ih =>
      rw [List.map_cons, List.cons_append, dget, if_neg (h kv (by simp))]
      exact ih (fun y hy => h y (by simp [hy]))

theorem filter_extra_eq (ex : List (String × String))
    (h : ∀ kv ∈ ex, kv.1 ∉ consBaseKeys) :
    (ex.map (fun kv => (kv.1, Json.s kv.2))).filter (fun kv => kv.1 ∉ consBaseKeys)
      = ex.map (fun kv => (kv.1, Json.s kv.2)) := by
  apply List.filter_eq_self.mpr
  intro kv hkv
  obtain ⟨kv0, hkv0, rfl⟩ := List.mem_map.mp hkv
  simpa using h kv0 hkv0

theorem consPart_roundtrip (p : ConsPart) (hwf : extraKeysWF p) :
    decConsPart (consPartToJson p) = some p := by
  obtain ⟨rl, mp, vl, pk, vo, tl, pw, de, qu, ex, rd⟩ := p
  have hwf' : ∀ kv ∈ ex, kv.1 ∉ consBaseKeys := hwf
  have hrefdes : dget "refdes"
      (ex.map (fun kv => (kv.1, Json.s kv.2)) ++ [("refdes", Json.s rd)])
      = some (Json.s rd) := by
    rw [dget_extra_skip "refdes" ex _
      (fun kv hkv he => (hwf' kv hkv) (by rw [he]; decide))]
    rfl
  simp only [consPartToJson, decConsPart, decField, List.append_assoc,
    List.cons_append, List.nil_append]
  simp only [dget, String.reduceEq, reduceIte, hrefdes]
  have hstr : (List.map Json.s rl).mapM decStr = some rl :=
    mapM_map_eq_some Json.s decStr rl (fun x _ => rfl)
  have hfil : List.filter (fun kv => decide (kv.1 ∉ consBaseKeys))
      (("refdes_list", Json.arr (List.map Json.s rl)) ::
        ("mpn", Json.s mp) :: ("value", Json.s vl) :: ("package", Json.s pk) ::
        ("voltage", Json.s vo) :: ("tolerance", Json.s tl) :: ("power", Json.s pw) ::
        ("description", Json.s de) :: ("quantity", Json.i qu) ::
        (List.map (fun kv => (kv.1, Json.s kv.2)) ex ++ [("refdes", Json.s rd)]))
      = List.map (fun kv => (kv.1, Json.s kv.2)) ex := by
    rw [List.filter_cons, if_neg (by simp [consBaseKeys]),
      List.filter_cons, if_neg (by simp [consBaseKeys]),
      List.filter_cons, if_neg (by simp [consBaseKeys]),
      List.filter_cons, if_neg (by simp [consBaseKeys]),
      List.filter_cons, if_neg (by simp [consBaseKeys]),
      List.filter_cons, if_neg (by simp [consBaseKeys]),
      List.filter_cons, if_neg (by simp [consBaseKeys]),
      List.filter_cons, if_neg (by simp [consBaseKeys]),
      List.filter_cons, if_neg (by simp [consBaseKeys]), List.filter_append,
      filter_extra_eq ex hwf', List.filter_cons, if_neg (by simp [consBaseKeys])]
    simp
  have hextra : mapM (fun kv => Option.map (fun v => (kv.1, v)) (decStr kv.2))
      (List.map (fun kv => (kv.1, Json.s kv.2)) ex) = some ex :=
    objMapM_eq_some Json.s decStr ex (fun kv _ => rfl)
  simp only [Option.some_bind, decArr_arr, hstr, decStr_s, decInt_i, hfil, hextra]
  rfl


theorem row_roundtrip (r : Row) : decRow (rowToJson r) = some r := by
  show decObjWith decStr (Json.obj (r.map (fun kv => (kv.1, Json.s kv.2)))) = some r
  rw [decObjWith_obj]
  exact objMapM_eq_some Json.s decStr r (fun kv _ => rfl)

/-- Claim C8: saving the session state and loading the snapshot back
reproduces the consolidated-part sequence, the confirmed choices and the
checked flags exactly (along with the other persisted sections); only the
`part_key_to_index` mapping is rebuilt by enumeration.  The
well-formedness hypothesis (additional-column keys avoid the base field
names) holds of every part built by `get_consolidated_parts`. -/
theorem snapshot_round_trip (s s0 : Session) (now : String)
    (hwf : ∀ p ∈ s.consolidated_parts, extraKeysWF p) :
    ∃ s2, load_bom_state (save_bom_state now s) s0 = some s2
      ∧ s2.consolidated_parts = s.consolidated_parts
      ∧ s2.selected_parts = s.selected_parts
      ∧ s2.part_selected = s.part_selected
      ∧ s2.components = s.components
      ∧ s2.column_mapping = s.column_mapping
      ∧ s2.in_stock_only = s.in_stock_only
      ∧ s2.active_only = s.active_only
      ∧ s2.sort_preference = s.sort_preference
      ∧ s2.current_search_results = s.current_search_results
      ∧ s2.batch_part_keys = s.batch_part_keys
      ∧ s2.current_batch_index = s.current_batch_index := by
  have hparts : (s.consolidated_parts.map consPartToJson).mapM decConsPart
      = some s.consolidated_parts :=
    mapM_map_eq_some consPartToJson decConsPart s.consolidated_parts
      (fun p hp => consPart_roundtrip p (hwf p hp))
  have hcomps : (s.components.map rowToJson).mapM decRow = some s.components :=
    mapM_map_eq_some rowToJson decRow s.components (fun r _ => row_roundtrip r)
  have hcm : (s.column_mapping.map (fun kv => (kv.1, Json.s kv.2))).mapM
      (fun kv => (decStr kv.2).map (fun v => (kv.1, v))) = some s.column_mapping :=
    objMapM_eq_some Json.s decStr s.column_mapping (fun kv _ => rfl)
  have hsel : (s.selected_parts.map (fun kv => (kv.1, mouserToJson kv.2))).mapM
      (fun kv => (decMouser kv.2).map (fun v => (kv.1, v))) = some s.selected_parts :=
    objMapM_eq_some mouserToJson decMouser s.selected_parts
      (fun kv _ => mouser_roundtrip kv.2)
  have hps : (s.part_selected.map (fun kv => (kv.1, Json.b kv.2))).mapM
      (fun kv => (decBool kv.2).map (fun v => (kv.1, v))) = some s.part_selected :=
    objMapM_eq_some Json.b decBool s.part_selected (fun kv _ => rfl)
  have hcsr : (s.current_search_results.map
        (fun kv => (kv.1, Json.arr (kv.2.map mouserToJson)))).mapM
      (fun kv => ((decArr decMouser) kv.2).map (fun v => (kv.1, v)))
      = some s.current_search_results :=
    objMapM_eq_some (fun l => Json.arr (l.map mouserToJson)) (decArr decMouser)
      s.current_search_results
      (fun kv _ => by
        show decArr decMouser (Json.arr (kv.2.map mouserToJson)) = some kv.2
        rw [decArr_arr]
        exact mapM_map_eq_some mouserToJson decMouser kv.2 (fun x _ => mouser_roundtrip x))
  have hbpk : (s.batch_part_keys.map Json.s).mapM decStr = some s.batch_part_keys :=
    mapM_map_eq_some Json.s decStr s.batch_part_keys (fun x _ => rfl)
  refine ⟨Session.mk s.components s.consolidated_parts s.column_mapping
    s.selected_parts s.part_selected s.in_stock_only s.active_only
    s.sort_preference s.current_search_results s.batch_part_keys
    s.current_batch_index
    ((List.range s.consolidated_parts.length).map
      (fun idx => (_generate_part_key idx, idx))), ?_,
    rfl, rfl, rfl, rfl, rfl, rfl, rfl, rfl, rfl, rfl, rfl⟩
  simp only [save_bom_state, load_bom_state]
  simp only [decField, loadField, dget, String.reduceEq, reduceIte]
  simp only [Option.some_bind, decArr_arr, decObjWith_obj, hparts, hcomps, hcm, hsel,
    hps, hcsr, hbpk, decBool_b, decStr_s, decInt_i]
  rfl

/-- Witness for `snapshot_round_trip` at a concrete two-part session. -/
theorem snapshot_round_trip_witness :
    ∃ s2, load_bom_state (save_bom_state "2024-01-01" cexSession) cexSession = some s2
      ∧ s2.consolidated_parts = cexSession.consolidated_parts
      ∧ s2.selected_parts = cexSession.selected_parts
      ∧ s2.part_selected = cexSession.part_selected
      ∧ s2.components = cexSession.components
      ∧ s2.column_mapping = cexSession.column_mapping
      ∧ s2.in_stock_only = cexSession.in_stock_only
      ∧ s2.active_only = cexSession.active_only
      ∧ s2.sort_preference = cexSession.sort_preference
      ∧ s2.current_search_results = cexSession.current_search_results
      ∧ s2.batch_part_keys = cexSession.batch_part_keys
      ∧ s2.current_batch_index = cexSession.current_batch_index :=
  snapshot_round_trip cexSession cexSession "2024-01-01" (by
    intro p hp
    simp only [cexSession] at hp
    rcases List.mem_cons.mp hp with rfl | hp
    · intro kv hkv
      simp [cexPart0] at hkv
    · rcases List.mem_cons.mp hp with rfl | hp
      · intro kv hkv
        simp [cexPart1] at hkv
      · simp at hp)
